import Mathlib

/-!
# Calendar arithmetic of the `jodatime` package

A shallow embedding of `jodatime.go`: the absolute-time decomposition
(`absDate`, `absClock`), the leap-year helpers (`isLeap`, `daysIn`,
`daysBefore`), the constructors and the `Add*` operations of `JodaDate`.

Conventions.
* Go `uint64` values are natural numbers below `2 ^ 64`; Go `int` (taken to be 64 bits
  wide) and `int64` values are integers, wrapped with `wrapInt64` wherever the source
  arithmetic can overflow; `int32` values are wrapped with `wrapInt32`.
* Go `/` and `%` on signed integers truncate towards zero: `Int.tdiv`, `Int.tmod`.
* An out-of-range array index panics in Go; such a computation returns `none`.
-/

namespace Jodatime

/-! ## Machine integers -/

/-- Two's-complement reduction of an integer to the `int64` range. -/
def wrapInt64 (x : Int) : Int :=
  if x % 2 ^ 64 < 2 ^ 63 then x % 2 ^ 64 else x % 2 ^ 64 - 2 ^ 64

/-- Go conversion `int64(u)` of a `uint64` value. -/
def toInt64 (u : Nat) : Int :=
  if u % 2 ^ 64 < 2 ^ 63 then ((u % 2 ^ 64 : Nat) : Int) else ((u % 2 ^ 64 : Nat) : Int) - 2 ^ 64

/-- Go conversion `uint64(x)` of a signed value. -/
def toUint64 (x : Int) : Nat := (x % 2 ^ 64).toNat

/-- Two's-complement reduction of an integer to the `int32` range. -/
def wrapInt32 (x : Int) : Int :=
  if x % 2 ^ 32 < 2 ^ 31 then x % 2 ^ 32 else x % 2 ^ 32 - 2 ^ 32

/-! ## Constants (`jodatime.go`, lines 12-48) -/

def secondsPerMinute : Nat := 60
def secondsPerHour : Nat := 60 * 60
def secondsPerDay : Nat := 24 * secondsPerHour
def secondsPerWeek : Nat := 7 * secondsPerDay
def daysPer400Years : Nat := 365 * 400 + 97
def daysPer100Years : Nat := 365 * 100 + 24
def daysPer4Years : Nat := 365 * 4 + 1

/-- The unsigned zero year for internal calculations. -/
def absoluteZeroYear : Int := -292277022399

/-- The year of the zero Time. -/
def internalYear : Int := 1

/-- Constant `(absoluteZeroYear - internalYear) * 365.2425 * secondsPerDay`; the factor
`365.2425` is written as the exact fraction `3652425 / 10000`. -/
def absoluteToInternal : Int :=
  (absoluteZeroYear - internalYear) * 3652425 * secondsPerDay / 10000

def internalToAbsolute : Int := -absoluteToInternal

def unixToInternal : Int :=
  ((1969 * 365 + 1969 / 4 - 1969 / 100 + 1969 / 400 : Nat) : Int) * secondsPerDay

def internalToUnix : Int := -unixToInternal

/-! ## Leap years and the month table -/

/-- Source `isLeap`: `year%4 == 0 && (year%100 != 0 || year%400 == 0)`. -/
def isLeap (year : Int) : Bool :=
  year.tmod 4 == 0 && (year.tmod 100 != 0 || year.tmod 400 == 0)

/-- Source table `daysBefore`: days in a non-leap year before month `m` begins,
with a final entry for January of the next year. -/
def daysBefore : List Int :=
  [ 0,
    31,
    31 + 28,
    31 + 28 + 31,
    31 + 28 + 31 + 30,
    31 + 28 + 31 + 30 + 31,
    31 + 28 + 31 + 30 + 31 + 30,
    31 + 28 + 31 + 30 + 31 + 30 + 31,
    31 + 28 + 31 + 30 + 31 + 30 + 31 + 31,
    31 + 28 + 31 + 30 + 31 + 30 + 31 + 31 + 30,
    31 + 28 + 31 + 30 + 31 + 30 + 31 + 31 + 30 + 31,
    31 + 28 + 31 + 30 + 31 + 30 + 31 + 31 + 30 + 31 + 30,
    31 + 28 + 31 + 30 + 31 + 30 + 31 + 31 + 30 + 31 + 30 + 31 ]

/-- Indexing `daysBefore[i]`; an index outside `0..12` panics in Go (`none`). -/
def daysBeforeAt (i : Int) : Option Int :=
  if 0 ≤ i then daysBefore.get? i.toNat else none

/-- Source `daysIn`: the `int32` difference of two table entries, or 29 for a leap
February. -/
def daysIn (m : Int) (year : Int) : Option Int :=
  if m == 2 && isLeap year then some 29
  else do
    let hi ← daysBeforeAt m
    let lo ← daysBeforeAt (m - 1)
    pure (wrapInt32 (hi - lo))

/-! ## Absolute time to civil date -/

/-- The four named results of `absDate`. -/
structure Civil where
  year : Int
  month : Int
  day : Int
  yday : Int
deriving DecidableEq

/-- Lines 53-86 of `absDate`: year and zero-based day of year. The `uint64`
subtractions never go below zero, so they are the subtractions of `Nat`. -/
def absYearDay (abs : Nat) : Int × Int :=
  -- Split into time and day.
  let d := abs / secondsPerDay
  -- Account for 400 year cycles.
  let n := d / daysPer400Years
  let y := 400 * n
  let d := d - daysPer400Years * n
  -- Cut off 100-year cycles.
  let n := d / daysPer100Years
  let n := n - (n >>> 2)
  let y := y + 100 * n
  let d := d - daysPer100Years * n
  -- Cut off 4-year cycles.
  let n := d / daysPer4Years
  let y := y + 4 * n
  let d := d - daysPer4Years * n
  -- Cut off years within a 4-year cycle.
  let n := d / 365
  let n := n - (n >>> 2)
  let y := y + n
  let d := d - 365 * n
  (wrapInt64 (toInt64 y + absoluteZeroYear), toInt64 d)

/-- Lines 107-121 of `absDate`: estimate the month on the assumption that every month
has 31 days, then adjust by at most one. Returns the final `(month, day)`. -/
def absMonthDay (day : Int) : Option (Int × Int) := do
  let month := day.tdiv 31
  let e ← daysBeforeAt (month + 1)
  if day ≥ e then
    -- month++; begin = end; then month++ because January is 1
    pure (month + 1 + 1, day - e + 1)
  else
    let b ← daysBeforeAt month
    pure (month + 1, day - b + 1)

/-- Source `absDate`: with `full = false` only `year` and `yday` are set and the other
results keep their zero value. -/
def absDate (abs : Nat) (full : Bool) : Option Civil :=
  let year := (absYearDay abs).1
  let yday := (absYearDay abs).2
  if !full then some ⟨year, 0, 0, yday⟩
  else
    let day := yday
    if isLeap year then
      if day > 31 + 29 - 1 then
        -- After leap day; pretend it wasn't there.
        (absMonthDay (day - 1)).map fun md => ⟨year, md.1, md.2, yday⟩
      else if day == 31 + 29 - 1 then
        -- Leap day.
        some ⟨year, 2, 29, yday⟩
      else (absMonthDay day).map fun md => ⟨year, md.1, md.2, yday⟩
    else (absMonthDay day).map fun md => ⟨year, md.1, md.2, yday⟩

/-- Source `absClock`: hour, minute and second of an absolute time. -/
def absClock (abs : Nat) : Int × Int × Int :=
  let sec := toInt64 (abs % secondsPerDay)
  let hour := sec.tdiv secondsPerHour
  let sec := sec - hour * secondsPerHour
  let min := sec.tdiv secondsPerMinute
  let sec := sec - min * secondsPerMinute
  (hour, min, sec)

/-- Standard library `time.Sunday`, the first value of `time.Weekday`. -/
def Sunday : Int := 0

/-- Standard library `time.Monday`. -/
def Monday : Int := 1

/-- Source `absWeekday`: day of the week of an absolute time. The sum is a `uint64`
sum and wraps at `2 ^ 64`; `int(sec)` converts the remainder to a signed value. -/
def absWeekday (abs : Nat) : Int :=
  let sec := (abs + toUint64 Monday * secondsPerDay) % 2 ^ 64 % secondsPerWeek
  (toInt64 sec).tdiv secondsPerDay

/-! ## The standard library `time.Time`, as far as the package uses it

`time.Time` and `time.Location` belong to the Go standard library. The model keeps what
`jodatime.go` reads and writes: the wall-clock second count of an instant (a signed
64-bit count of seconds since January 1 of year 1, at whose limits `Time.Add`
saturates), the nanosecond within the second, and the zone, whose offset can change from
one instant to another. The monotonic clock reading is left out: it does not change the
wall clock. -/

/-- A `time.Location`: the offset (seconds east of UTC) in use before the first
transition, and the transitions `(when, offset)` in ascending order of `when`, each with
the Unix second from which its offset is in use. Zone names are left out, and so is the
rule that extends a table beyond its last transition. -/
structure Location where
  offset : Int
  tx : List (Int × Int)
deriving DecidableEq

/-- Library `time.UTC`. -/
def UTC : Location := ⟨0, []⟩

/-- Library `time.FixedZone(name, offset)`: the zone that always uses the given offset,
in seconds east of UTC (the name is left out). -/
def FixedZone (offset : Int) : Location := ⟨offset, []⟩

/-- Search of `Location.lookup` through the transitions that follow the interval
starting at `start` with offset `offset`; the library searches the same ascending table
by bisection. The last interval ends at the library constant `omega = 1<<63 - 1`. -/
def lookupFrom (offset start : Int) : List (Int × Int) → Int → Int × Int × Int
  | [], _ => (offset, start, 2 ^ 63 - 1)
  | (w, o) :: rest, sec =>
    if sec < w then (offset, start, w) else lookupFrom o w rest sec

/-- Library `Location.lookup`: the offset in use at the Unix second `sec`, with the
start and the end of the interval of seconds in which it is in use. The first interval
starts at the library constant `alpha = -1<<63`. -/
def Location.lookup (l : Location) (sec : Int) : Int × Int × Int :=
  lookupFrom l.offset (-2 ^ 63) l.tx sec

/-- An instant in a zone: the library fields `ext` (seconds since January 1 of year 1,
an `int64`), the nanosecond within the second, and `loc`. -/
structure Time where
  ext : Int
  nsec : Int
  loc : Location
deriving DecidableEq

/-- The fields are in the range of their types, as the library maintains them: the
nanosecond lies in `[0, 10^9)` and the second count is an `int64`. -/
abbrev Time.WF (t : Time) : Prop :=
  0 ≤ t.nsec ∧ t.nsec < 1000000000 ∧ -2 ^ 63 ≤ t.ext ∧ t.ext < 2 ^ 63

/-- A `time.Duration`: nanoseconds as an `int64`. -/
abbrev Duration := Int

def Nanosecond : Duration := 1
def Second : Duration := 1000000000 * Nanosecond
def Minute : Duration := 60 * Second
def Hour : Duration := 60 * Minute

/-- Library `unixTime(sec, nsec)` followed by `setLoc(loc)`: the instant `sec` seconds
and `nsec` nanoseconds after the Unix epoch, in the zone `loc`. -/
def unixTime (sec nsec : Int) (loc : Location) : Time :=
  ⟨wrapInt64 (sec + unixToInternal), nsec, loc⟩

/-- Library `Time.Unix`: seconds since the Unix epoch. -/
def Time.Unix (t : Time) : Int := wrapInt64 (t.ext + internalToUnix)

/-- Library `Time.Zone`: the offset in use at the instant `t` (the name is left out). -/
def Time.Zone (t : Time) : Int := (t.loc.lookup t.Unix).1

/-- Library `Time.In`: the same instant, read in the zone `loc`. -/
def Time.In (t : Time) (loc : Location) : Time := { t with loc := loc }

/-- Library `addSec`: adds `d` seconds to the second count; a sum that overflows the
`int64` is replaced by the largest or the smallest count. -/
def Time.addSec (t : Time) (d : Int) : Time :=
  -- Check if the sum of t.ext and d overflows and handle it properly.
  let sum := wrapInt64 (t.ext + d)
  if decide (sum > t.ext) == decide (d > 0) then { t with ext := sum }
  else if d > 0 then { t with ext := 2 ^ 63 - 1 }
  else { t with ext := -(2 ^ 63 - 1) }

/-- Library `Time.Add`: whole seconds `d / 1e9` and nanoseconds `d % 1e9` are added
separately, with one carry or borrow; the seconds are added by `addSec`. -/
def Time.Add (t : Time) (d : Duration) : Time :=
  let dsec := d.tdiv 1000000000
  let nsec := t.nsec + d.tmod 1000000000
  if nsec ≥ 1000000000 then ({ t with nsec := nsec - 1000000000 }).addSec (dsec + 1)
  else if nsec < 0 then ({ t with nsec := nsec + 1000000000 }).addSec (dsec - 1)
  else ({ t with nsec := nsec }).addSec dsec

/-- Source `locabs`: zone offset and absolute time of `t` (the zone name is left out). -/
def locabs (t : Time) : Int × Nat :=
  let l := t.loc
  let offset := t.Zone
  let sec := t.Unix
  let sec := if l != UTC then wrapInt64 (sec + offset) else sec
  (offset, toUint64 (wrapInt64 (sec + (unixToInternal + internalToAbsolute))))

/-- Library `Time.Date`: civil date of `t` in its zone, through `absDate`. -/
def Time.date (t : Time) : Option Civil := absDate (locabs t).2 true

def Time.Year (t : Time) : Option Int := t.date.map (·.year)
def Time.Month (t : Time) : Option Int := t.date.map (·.month)
def Time.Day (t : Time) : Option Int := t.date.map (·.day)

/-- Library `Time.Clock`: hour, minute and second of `t` in its zone, through
`absClock`. -/
def Time.Clock (t : Time) : Int × Int × Int := absClock (locabs t).2

/-! ## `JodaDate` and its additions -/

structure JodaDate where
  Date : Time
deriving DecidableEq

/-- Source `AddDay`: `j.Date.Add(time.Duration(d*24) * time.Hour)`. -/
def JodaDate.AddDay (j : JodaDate) (d : Int) : JodaDate :=
  ⟨j.Date.Add (wrapInt64 (wrapInt64 (d * 24) * Hour))⟩

/-- Source `AddHour`. -/
def JodaDate.AddHour (j : JodaDate) (h : Int) : JodaDate :=
  ⟨j.Date.Add (wrapInt64 (h * Hour))⟩

/-- Source `AddMinute`. -/
def JodaDate.AddMinute (j : JodaDate) (m : Int) : JodaDate :=
  ⟨j.Date.Add (wrapInt64 (m * Minute))⟩

/-- Source `AddSecond`. -/
def JodaDate.AddSecond (j : JodaDate) (s : Int) : JodaDate :=
  ⟨j.Date.Add (wrapInt64 (s * Second))⟩

/-- Source `AddWeek`: `j.Date.Add(time.Duration(w*7*24) * time.Hour)`. -/
def JodaDate.AddWeek (j : JodaDate) (w : Int) : JodaDate :=
  ⟨j.Date.Add (wrapInt64 (wrapInt64 (wrapInt64 (w * 7) * 24) * Hour))⟩

/-- Source `yearsDays`: days from the year of `dt1` to `y` years later, counting leap
years. -/
def yearsDays (dt1 : Time) (y : Int) : Option Int :=
  if y == 0 then some 0
  else do
    let y1 ← dt1.Year
    let y2 := wrapInt64 (y1 + y)
    -- if y is negative, exchange y1 & y2.
    let (y1, y2) := if y < 0 then (y2, y1) else (y1, y2)
    -- rem(4) = 0
    let f1 := y1.tdiv 4
    let f2 := y2.tdiv 4
    let yf := f2 - f1
    -- rem(100) = 0
    let h1 := y1.tdiv 100
    let h2 := y2.tdiv 100
    let yh := h2 - h1
    -- rem(400) = 0
    let fh1 := y1.tdiv 400
    let fh2 := y2.tdiv 400
    let yfh := fh2 - fh1
    let month ← dt1.Month
    let day ← dt1.Day
    let leapDay : Int :=
      if isLeap y1 && !isLeap y2 && (month == 1 || (month == 2 && decide (day < 29))) then 1
      else 0
    if y > 0 then
      pure (wrapInt64 ((yf - yh + yfh) + leapDay + 365 * y))
    else
      pure (wrapInt64 (-(wrapInt64 ((yf - yh + yfh) + leapDay + 365 * (-y)))))

/-- Source `AddYear`. -/
def JodaDate.AddYear (j : JodaDate) (y : Int) : Option JodaDate := do
  let days ← yearsDays j.Date y
  pure ⟨j.Date.Add (wrapInt64 (wrapInt64 (24 * days) * Hour))⟩

/-- Lines 340-363 of `AddMonth`: the number of days that the method adds (the value of
`days` when the `return` statement is reached). -/
def addMonthDays (j : JodaDate) (m : Int) : Option Int := do
  -- dt1: maybe last year.
  let days ← yearsDays j.Date (m.tdiv 12)
  let dt1 := j.Date.Add (wrapInt64 (wrapInt64 (24 * days) * Hour))
  let m1 ← j.Date.Month
  let m2 := (m1 + m.tmod 12).tmod 12
  let dt1Year ← dt1.Year
  let jYear ← j.Date.Year
  let jDay ← j.Date.Day
  if m1 < m2 then
    let a ← daysBeforeAt (m2 - 1)
    let b ← daysBeforeAt (m1 - 1)
    let days := wrapInt64 (days + wrapInt32 (a - b))
    -- [m1, m2] cross 2-29 in leap-year.
    let leapDay : Int :=
      if isLeap dt1Year && isLeap jYear && decide (m2 > 2)
          && (decide (m1 < 2) || (m1 == 2 && decide (jDay ≤ 29))) then 1
      else 0
    pure (wrapInt64 (days + leapDay))
  else if m1 > m2 then
    -- year must be different.
    let a ← daysBeforeAt 12
    let b ← daysBeforeAt m1
    let c ← daysBeforeAt m2
    let days := wrapInt64 (days + wrapInt32 (a - b + c))
    let leapDay : Int :=
      if isLeap dt1Year && (decide (m1 < 2) || (m1 == 2 && decide (jDay ≤ 29))) then 1
      else if isLeap (wrapInt64 (dt1Year + 1)) && decide (m2 > 2) then 1
      else 0
    pure (wrapInt64 (days + leapDay))
  else
    pure (wrapInt64 (days + 0))

/-- Source `AddMonth`: the days of `addMonthDays`, added as a duration of `24*days`
hours. -/
def JodaDate.AddMonth (j : JodaDate) (m : Int) : Option JodaDate := do
  let days ← addMonthDays j m
  pure ⟨j.Date.Add (wrapInt64 (wrapInt64 (24 * days) * Hour))⟩

/-! ## Constructors of `JodaDate`

`time.Date` belongs to the Go standard library; it is modelled with the algorithm that
`absDate` inverts. -/

/-- Library `norm`: carries `lo` into `hi` until `0 ≤ lo < base`. -/
def norm (hi lo base : Int) : Int × Int :=
  let r : Int × Int :=
    if lo < 0 then
      let n := wrapInt64 ((wrapInt64 (wrapInt64 (-lo) - 1)).tdiv base + 1)
      (wrapInt64 (hi - n), wrapInt64 (lo + wrapInt64 (n * base)))
    else (hi, lo)
  if r.2 ≥ base then
    let n := r.2.tdiv base
    (wrapInt64 (r.1 + n), wrapInt64 (r.2 - wrapInt64 (n * base)))
  else r

/-- Library `daysSinceEpoch`: days from the absolute epoch to the start of `year`. -/
def daysSinceEpoch (year : Int) : Nat :=
  let y := toUint64 (wrapInt64 (year - absoluteZeroYear))
  -- Add in days from 400-year cycles.
  let n := y / 400
  let y := y - 400 * n
  let d := daysPer400Years * n
  -- Add in 100-year cycles.
  let n := y / 100
  let y := y - 100 * n
  let d := d + daysPer100Years * n
  -- Add in 4-year cycles.
  let n := y / 4
  let y := y - 4 * n
  let d := d + daysPer4Years * n
  -- Add in non-leap years.
  let n := y
  (d + 365 * n) % 2 ^ 64

/-- Library `time.Date`: normalises the fields, counts the days since the absolute epoch
and the seconds of the day, and subtracts the offset that the zone uses at that time.
The month index lies in `0..11` after normalisation, so the table lookup always
succeeds. -/
def Date (year month day hour min sec nsec : Int) (loc : Location) : Time :=
  -- Normalize month, overflowing into year.
  let m := wrapInt64 (month - 1)
  let ym := norm year m 12
  let year := ym.1
  let month := wrapInt64 (ym.2 + 1)
  -- Normalize nsec, sec, min, hour, overflowing into day.
  let sn := norm sec nsec 1000000000
  let ms := norm min sn.1 60
  let hm := norm hour ms.1 60
  let dh := norm day hm.1 24
  let nsec := sn.2
  let sec := ms.2
  let min := hm.2
  let hour := dh.2
  let day := dh.1
  -- Compute days since the absolute epoch.
  let d := daysSinceEpoch year
  -- Add in days before this month.
  let d := (d + toUint64 ((daysBeforeAt (month - 1)).getD 0)) % 2 ^ 64
  let d := if isLeap year && decide (month ≥ 3) then (d + 1) % 2 ^ 64 else d
  -- Add in days before today.
  let d := (d + toUint64 (wrapInt64 (day - 1))) % 2 ^ 64
  -- Add in time elapsed today.
  let abs := (d * secondsPerDay) % 2 ^ 64
  let abs := (abs + toUint64 (wrapInt64 (wrapInt64 (wrapInt64 (hour * secondsPerHour)
    + wrapInt64 (min * secondsPerMinute)) + sec))) % 2 ^ 64
  let unix := wrapInt64 (toInt64 abs + (absoluteToInternal + internalToUnix))
  -- Look for zone offset for expected time, so we can adjust to UTC.
  let found := loc.lookup unix
  let unix :=
    if found.1 != 0 then
      let utc := wrapInt64 (unix - found.1)
      -- If utc is valid for the time zone we found, then we have the right offset.
      -- If not, we get the correct offset by looking up utc in the location.
      let offset :=
        if decide (utc < found.2.1) || decide (utc ≥ found.2.2) then (loc.lookup utc).1
        else found.1
      wrapInt64 (unix - offset)
    else unix
  unixTime unix nsec loc

/-- Source `DateZone`: panics when `loc` is nil. -/
def DateZone (year month day hour min sec nsec : Int) (loc : Option Location) :
    Option JodaDate :=
  match loc with
  | none => none
  | some l => some ⟨Date year month day hour min sec nsec l⟩

/-- Source `DateFull`: `time.Date(..., time.FixedZone("Asia/Shanghai", 8))`. -/
def DateFull (year month day hour min sec nsec : Int) : JodaDate :=
  ⟨Date year month day hour min sec nsec (FixedZone 8)⟩

/-- Source `DateDay`. -/
def DateDay (year month day : Int) : JodaDate :=
  ⟨Date year month day 0 0 0 0 (FixedZone 8)⟩

/-- Source `DateHour`. -/
def DateHour (year month day hour : Int) : JodaDate :=
  ⟨Date year month day hour 0 0 0 (FixedZone 8)⟩

/-- Source `DateMinute`. -/
def DateMinute (year month day hour min : Int) : JodaDate :=
  ⟨Date year month day hour min 0 0 (FixedZone 8)⟩

/-- Source `DateSecond`. -/
def DateSecond (year month day hour min sec : Int) : JodaDate :=
  ⟨Date year month day hour min sec 0 (FixedZone 8)⟩

/-- Source `DateChina`: `j.Date.In(time.FixedZone("Asia/Shanghai", 8))`. -/
def JodaDate.DateChina (j : JodaDate) : Time := j.Date.In (FixedZone 8)

/-! ## Pattern formatting

`Format` is called by the tests but its source is not among the source files. -/

/-- Modelled from the spec: the state of the single-pass pattern scanner of `Format`,
which is missing from the source files (spec section 4.3). Outside quotes the scanner
holds the pending run of identical field letters, if any; `opened` is the state right
after an opening quote; `quoted` is the state inside quoted text. -/
inductive ScanState where
  | outside (run : Option (Char × Nat))
  | opened
  | quoted

/-- Modelled from the spec: the single-quote character that delimits literal text in a
pattern of the missing `Format`. -/
def quoteChar : Char := Char.ofNat 39

/-- Modelled from the spec: the text of a pending run of field letters, rendered by
`fields` (the field renderer of the date that is formatted); part of the missing
`Format`. -/
def flushRun (fields : Char → Nat → List Char) : Option (Char × Nat) → List Char
  | none => []
  | some (c, n) => fields c n

/-- Modelled from the spec: the missing `Format`, as a scanner over the pattern (spec
section 4.3). Outside quotes a letter is a field selector and a run of `n` identical
letters selects the field with width `n`; other characters pass through unchanged; a
single quote opens literal text that runs to the next single quote; two consecutive
single quotes emit one quote character. -/
def scanPattern (fields : Char → Nat → List Char) : ScanState → List Char → List Char
  | .outside run, [] => flushRun fields run
  | .outside run, c :: cs =>
    if c = quoteChar then flushRun fields run ++ scanPattern fields .opened cs
    else if c.isAlpha then
      match run with
      | some (f, n) =>
        if f = c then scanPattern fields (.outside (some (f, n + 1))) cs
        else fields f n ++ scanPattern fields (.outside (some (c, 1))) cs
      | none => scanPattern fields (.outside (some (c, 1))) cs
    else flushRun fields run ++ c :: scanPattern fields (.outside none) cs
  | .opened, [] => []
  | .opened, c :: cs =>
    if c = quoteChar then quoteChar :: scanPattern fields (.outside none) cs
    else c :: scanPattern fields .quoted cs
  | .quoted, [] => []
  | .quoted, c :: cs =>
    if c = quoteChar then scanPattern fields (.outside none) cs
    else c :: scanPattern fields .quoted cs

/-- Modelled from the spec: the zero-padded decimal rendering used by the fields of the
missing `Format`: the digits of `k`, padded on the left to at least `width` digits. -/
def paddedDigits (width k : Nat) : List Char :=
  List.replicate (width - (Nat.toDigits 10 k).length) (Char.ofNat 48) ++ Nat.toDigits 10 k

/-- Modelled from the spec: the year field of the missing `Format` (spec section 4.3,
year widths 2 and 4): a run of two letters renders the last two digits of the year, any
other run of `n` letters renders the year in at least `n` digits. The spec does not say
how a negative year is written; the model writes a minus sign before the digits. -/
def yearField (year : Int) (n : Nat) : List Char :=
  if n = 2 then paddedDigits 2 (year.natAbs % 100)
  else if year < 0 then Char.ofNat 45 :: paddedDigits n year.natAbs
  else paddedDigits n year.natAbs

/-- Modelled from the spec: the field renderer of the missing `Format` for a date of the
given year: the letter `Y` selects the year, and `others` stands for the rendering of
every other field letter of that date. -/
def dateFields (year : Int) (others : Char → Nat → List Char) (c : Char) (n : Nat) :
    List Char :=
  if c = 'Y' then yearField year n else others c n

/-- Modelled from the spec: the missing `Format(t, pattern)`; the year is read through
`absDate`, and `others` stands for the rendering of the other fields of `t`. -/
def Format (others : Char → Nat → List Char) (t : Time) (pattern : String) :
    Option String :=
  t.Year.map fun year =>
    String.mk (scanPattern (dateFields year others) (.outside none) pattern.toList)

/-! ## Reference notions used to state the properties -/

/-- Length in days of a civil year. -/
def yearLength (year : Int) : Int := if isLeap year then 366 else 365

/-- Civil fields `(year, month, day, hour, minute, second)` of a `JodaDate` in its
zone, read through `absDate` and `absClock`. -/
def JodaDate.civil (j : JodaDate) : Option (Int × Int × Int × Int × Int × Int) :=
  j.Date.date.map fun c =>
    (c.year, c.month, c.day, j.Date.Clock.1, j.Date.Clock.2.1, j.Date.Clock.2.2)

/-- Days from the first day of the absolute zero year to the first day of `year`. -/
def daysBeforeYear (year : Int) : Int :=
  365 * (year - absoluteZeroYear) + (year - absoluteZeroYear) / 4
    - (year - absoluteZeroYear) / 100 + (year - absoluteZeroYear) / 400

/-- The instant `k` seconds after `t`, in the same zone. -/
def Time.shift (t : Time) (k : Int) : Time := ⟨t.ext + k, t.nsec, t.loc⟩

/-- A second count that fits the `int64` field of a `time.Time`; `Time.Add` saturates
when its sum does not. -/
abbrev FitsSeconds (x : Int) : Prop := -2 ^ 63 ≤ x ∧ x < 2 ^ 63

/-- The zone America/Los_Angeles from 2021 to 2024: offset -8h, and -7h between the
second Sunday of March and the first Sunday of November. -/
def LosAngeles : Location :=
  ⟨-28800, [(1615716000, -25200), (1636275600, -28800), (1647165600, -25200),
    (1667725200, -28800), (1678615200, -25200), (1699174800, -28800),
    (1710064800, -25200), (1730624400, -28800)]⟩

/-- The zone America/Sao_Paulo from 2017 to 2019: offset -3h, and -2h from 2017-10-15 to
2018-02-18 and from 2018-11-04 to 2019-02-17. -/
def SaoPaulo : Location :=
  ⟨-10800, [(1508036400, -7200), (1518919200, -10800), (1541300400, -7200),
    (1550368800, -10800)]⟩

/-- A count of whole seconds whose nanosecond value fits a `time.Duration`. -/
abbrev FitsDuration (secs : Int) : Prop :=
  -2 ^ 63 ≤ secs * 1000000000 ∧ secs * 1000000000 < 2 ^ 63

/-- One fixed-duration addition with its count, used to speak about the order in which
`AddDay`, `AddHour`, `AddMinute`, `AddSecond` and `AddWeek` are applied. -/
inductive FixedAdd where
  | day (n : Int)
  | hour (n : Int)
  | minute (n : Int)
  | second (n : Int)
  | week (n : Int)
deriving DecidableEq

/-- The method of `JodaDate` that a `FixedAdd` stands for. -/
def FixedAdd.apply (j : JodaDate) : FixedAdd → JodaDate
  | .day n => j.AddDay n
  | .hour n => j.AddHour n
  | .minute n => j.AddMinute n
  | .second n => j.AddSecond n
  | .week n => j.AddWeek n

/-- The number of seconds a `FixedAdd` is expected to move the instant by. -/
def FixedAdd.seconds : FixedAdd → Int
  | .day n => 86400 * n
  | .hour n => 3600 * n
  | .minute n => 60 * n
  | .second n => n
  | .week n => 604800 * n

/-- Day number of the civil date `year-month-day` in the proleptic Gregorian calendar,
counted from the first day of the absolute zero year. The number of days from one date
to another is the difference of their day numbers. -/
def civilDayNumber (year month day : Int) : Int :=
  daysBeforeYear year + (daysBeforeAt (month - 1)).getD 0
    + (if isLeap year && decide (month > 2) then 1 else 0) + (day - 1)

/-! ## Machine integers and leap years: basic facts -/

theorem wrapInt64_of_range (x : Int) (h1 : -2 ^ 63 ≤ x) (h2 : x < 2 ^ 63) :
    wrapInt64 x = x := by
  unfold wrapInt64; split_ifs <;> omega

theorem wrapInt32_of_range (x : Int) (h1 : -2 ^ 31 ≤ x) (h2 : x < 2 ^ 31) :
    wrapInt32 x = x := by
  unfold wrapInt32; split_ifs <;> omega

theorem toInt64_of_lt (u : Nat) (h : u < 2 ^ 63) : toInt64 u = u := by
  unfold toInt64; split_ifs <;> omega

theorem isLeap_iff (y : Int) :
    isLeap y = true ↔ y % 4 = 0 ∧ (y % 100 ≠ 0 ∨ y % 400 = 0) := by
  have h (k : Int) : y.tmod k = 0 ↔ y % k = 0 := by
    rw [← Int.dvd_iff_tmod_eq_zero, Int.dvd_iff_emod_eq_zero]
  simp [isLeap, h]

theorem yearDay_nat (d : Nat) :
    let n1 := d / 146097
    let d1 := d - 146097 * n1
    let n2 := d1 / 36524
    let n2' := n2 - (n2 >>> 2)
    let d2 := d1 - 36524 * n2'
    let n3 := d2 / 1461
    let d3 := d2 - 1461 * n3
    let n4 := d3 / 365
    let n4' := n4 - (n4 >>> 2)
    let d4 := d3 - 365 * n4'
    let y := 400 * n1 + 100 * n2' + 4 * n3 + n4'
    365 * y + y / 4 + y / 400 + d4 = d + y / 100 ∧
    (d4 < 365 ∨ (d4 = 365 ∧ (y + 1) % 4 = 0 ∧ ((y + 1) % 100 ≠ 0 ∨ (y + 1) % 400 = 0))) := by
  intro n1 d1 n2 n2' d2 n3 d3 n4 n4' d4 y
  have hd1 : d1 < 146097 ∧ d = 146097 * n1 + d1 := by omega
  have hn2 : n2 ≤ 4 := by omega
  have hn2' : n2' ≤ 3 ∧ (n2' = n2 ∨ (n2 = 4 ∧ n2' = 3)) := by omega
  have hd2 : d1 = 36524 * n2' + d2 ∧ (d2 < 36524 ∨ (d2 = 36524 ∧ n2' = 3)) := by omega
  have hn3 : n3 ≤ 24 := by omega
  have hd3 : d2 = 1461 * n3 + d3 ∧ d3 < 1461 := by omega
  have hn4 : n4 ≤ 4 := by omega
  have hn4' : n4' ≤ 3 ∧ (n4' = n4 ∨ (n4 = 4 ∧ n4' = 3)) := by omega
  have hd4 : d3 = 365 * n4' + d4 ∧ (d4 < 365 ∨ (d4 = 365 ∧ n4' = 3)) := by omega
  have hd2' : d2 = 36524 → n3 = 24 ∧ d3 = 1460 := by omega
  have hy4 : y / 4 = 100 * n1 + 25 * n2' + n3 := by omega
  have hy100 : y / 100 = 4 * n1 + n2' := by omega
  have hy400 : y / 400 = n1 := by omega
  refine ⟨by omega, ?_⟩
  omega

/-- No subtraction of `absYearDay` goes below zero, so the `uint64` arithmetic of the
source and the arithmetic of `Nat` agree. -/
theorem yearDay_no_underflow (d : Nat) :
    let n1 := d / 146097
    let d1 := d - 146097 * n1
    let n2 := d1 / 36524
    let n2' := n2 - (n2 >>> 2)
    let d2 := d1 - 36524 * n2'
    let n3 := d2 / 1461
    let d3 := d2 - 1461 * n3
    let n4 := d3 / 365
    let n4' := n4 - (n4 >>> 2)
    146097 * n1 ≤ d ∧ n2 >>> 2 ≤ n2 ∧ 36524 * n2' ≤ d1 ∧ 1461 * n3 ≤ d2 ∧
      n4 >>> 2 ≤ n4 ∧ 365 * n4' ≤ d3 := by
  intro n1 d1 n2 n2' d2 n3 d3 n4 n4'
  refine ⟨by omega, by omega, by omega, by omega, by omega, by omega⟩

theorem absYearDay_eq (abs : Nat) :
    ∃ y yd : Nat, absYearDay abs = (wrapInt64 (toInt64 y + absoluteZeroYear), toInt64 yd) ∧
      365 * y + y / 4 + y / 400 + yd = abs / secondsPerDay + y / 100 ∧
      (yd < 365 ∨ (yd = 365 ∧ (y + 1) % 4 = 0 ∧ ((y + 1) % 100 ≠ 0 ∨ (y + 1) % 400 = 0))) :=
  ⟨_, _, rfl, yearDay_nat (abs / secondsPerDay)⟩

theorem absYearDay_spec (abs : Nat) (h : abs < 2 ^ 64) :
    0 ≤ (absYearDay abs).2 ∧ (absYearDay abs).2 < yearLength (absYearDay abs).1 ∧
    0 ≤ (absYearDay abs).1 - absoluteZeroYear ∧
    365 * ((absYearDay abs).1 - absoluteZeroYear)
      + ((absYearDay abs).1 - absoluteZeroYear) / 4
      - ((absYearDay abs).1 - absoluteZeroYear) / 100
      + ((absYearDay abs).1 - absoluteZeroYear) / 400
      + (absYearDay abs).2 = ((abs / secondsPerDay : Nat) : Int) := by
  obtain ⟨y, yd, he, hsum, hyd⟩ := absYearDay_eq abs
  rw [he]
  have hd : abs / secondsPerDay < 2 ^ 64 / 86400 + 1 := by
    simp only [secondsPerDay, secondsPerHour]; omega
  generalize abs / secondsPerDay = d at hsum hd ⊢
  have hy : y < 2 ^ 62 := by omega
  have e1 : toInt64 y = y := toInt64_of_lt _ (by omega)
  have e2 : toInt64 yd = yd := toInt64_of_lt _ (by omega)
  have e3 : wrapInt64 ((y : Int) + absoluteZeroYear) = y + absoluteZeroYear :=
    wrapInt64_of_range _ (by unfold absoluteZeroYear; omega) (by unfold absoluteZeroYear; omega)
  simp only [e1, e2, e3, yearLength, add_sub_cancel_right]
  have hl : isLeap ((y : Int) + absoluteZeroYear) = true ↔
      ((y : Int) + 1) % 4 = 0 ∧ (((y : Int) + 1) % 100 ≠ 0 ∨ ((y : Int) + 1) % 400 = 0) := by
    rw [isLeap_iff]; unfold absoluteZeroYear; omega
  refine ⟨by omega, ?_, by omega, by omega⟩
  split_ifs with hleap
  · omega
  · rw [hl] at hleap; omega

set_option maxRecDepth 100000 in
theorem absMonthDay_table : ∀ k : Nat, k < 365 →
    (absMonthDay (k : Int)).any (fun md =>
      (daysBeforeAt (md.1 - 1)).any (fun lo => (daysBeforeAt md.1).any (fun hi =>
        decide (1 ≤ md.1 ∧ md.1 ≤ 12 ∧ lo ≤ (k : Int) ∧ (k : Int) < hi ∧
          md.2 = (k : Int) - lo + 1 ∧ wrapInt32 (hi - lo) = hi - lo ∧
          (md.1 ≤ 2 ↔ (k : Int) < 59) ∧ (md.1 = 2 → hi - lo = 28))))) = true := by
  decide

theorem absMonthDay_spec (day : Int) (h0 : 0 ≤ day) (h1 : day < 365) :
    ∃ m d lo hi, absMonthDay day = some (m, d) ∧ daysBeforeAt (m - 1) = some lo ∧
      daysBeforeAt m = some hi ∧ 1 ≤ m ∧ m ≤ 12 ∧ lo ≤ day ∧ day < hi ∧
      d = day - lo + 1 ∧ wrapInt32 (hi - lo) = hi - lo ∧
      (m ≤ 2 ↔ day < 59) ∧ (m = 2 → hi - lo = 28) := by
  obtain ⟨k, rfl⟩ := Int.eq_ofNat_of_zero_le h0
  have hk : k < 365 := by omega
  have ht := absMonthDay_table k hk
  cases hmd : absMonthDay (k : Int) with
  | none => simp [hmd] at ht
  | some md =>
    cases hlo : daysBeforeAt (md.1 - 1) with
    | none => simp [hmd, hlo] at ht
    | some lo =>
      cases hhi : daysBeforeAt md.1 with
      | none => simp [hmd, hlo, hhi] at ht
      | some hi =>
        simp only [hmd, hlo, hhi, Option.any_some, decide_eq_true_eq] at ht
        exact ⟨md.1, md.2, lo, hi, rfl, hlo, hhi, ht⟩

/-- C1: for every 64-bit absolute time, `absDate abs false` returns a year and a
zero-based day of year with `0 ≤ yday < 366` in a leap year and `< 365` otherwise, and
with `y = year - absoluteZeroYear` the day count `365*y + y/4 - y/100 + y/400 + yday`
is exactly `abs / secondsPerDay`. -/
theorem absDate_year_yday_roundtrip (abs : Nat) (h : abs < 2 ^ 64) :
    ∃ r : Civil, absDate abs false = some r ∧
      0 ≤ r.yday ∧ r.yday < (if isLeap r.year then 366 else 365) ∧
      0 ≤ r.year - absoluteZeroYear ∧
      365 * (r.year - absoluteZeroYear) + (r.year - absoluteZeroYear) / 4
        - (r.year - absoluteZeroYear) / 100 + (r.year - absoluteZeroYear) / 400
        + r.yday = ((abs / secondsPerDay : Nat) : Int) := by
  have hs := absYearDay_spec abs h
  exact ⟨⟨(absYearDay abs).1, 0, 0, (absYearDay abs).2⟩, rfl, hs.1, hs.2.1, hs.2.2.1, hs.2.2.2⟩

theorem absDate_year_yday_roundtrip_witness :
    (1000000000000 : Nat) < 2 ^ 64 ∧
    ∃ r : Civil, absDate 1000000000000 false = some r ∧
      0 ≤ r.yday ∧ r.yday < (if isLeap r.year then 366 else 365) ∧
      0 ≤ r.year - absoluteZeroYear ∧
      365 * (r.year - absoluteZeroYear) + (r.year - absoluteZeroYear) / 4
        - (r.year - absoluteZeroYear) / 100 + (r.year - absoluteZeroYear) / 400
        + r.yday = ((1000000000000 / secondsPerDay : Nat) : Int) :=
  ⟨by decide, absDate_year_yday_roundtrip 1000000000000 (by decide)⟩

theorem absDate_full_spec (abs : Nat) (h : abs < 2 ^ 64) :
    ∃ m d lo dim, absDate abs true = some ⟨(absYearDay abs).1, m, d, (absYearDay abs).2⟩ ∧
      1 ≤ m ∧ m ≤ 12 ∧ 1 ≤ d ∧ daysIn m (absYearDay abs).1 = some dim ∧ d ≤ dim ∧
      daysBeforeAt (m - 1) = some lo ∧
      (absYearDay abs).2 = lo + (d - 1) +
        (if isLeap (absYearDay abs).1 && decide (m > 2) then 1 else 0) := by
  obtain ⟨hy0, hy1, -, -⟩ := absYearDay_spec abs h
  simp only [absDate, yearLength] at hy1 ⊢
  generalize (absYearDay abs).1 = year at hy1 ⊢
  generalize (absYearDay abs).2 = yday at hy0 hy1 ⊢
  cases hl : isLeap year with
  | false =>
    simp only [hl, Bool.false_eq_true, if_false] at hy1 ⊢
    obtain ⟨m, d, lo, hi, hmd, hlo, hhi, hm1, hm12, h3, h4, h5, h6, h7, h8⟩ :=
      absMonthDay_spec yday hy0 hy1
    refine ⟨m, d, lo, hi - lo, by simp [hmd], hm1, hm12, by omega, ?_, by omega, hlo, ?_⟩
    · simp [daysIn, hl, hlo, hhi, h6]
    · simp; omega
  | true =>
    simp only [hl, if_true] at hy1 ⊢
    rcases lt_trichotomy yday 59 with hlt | heq | hgt
    · obtain ⟨m, d, lo, hi, hmd, hlo, hhi, hm1, hm12, h3, h4, h5, h6, h7, h8⟩ :=
        absMonthDay_spec yday hy0 (by omega)
      have hm2 : m ≤ 2 := h7.2 hlt
      refine ⟨m, d, lo, if m = 2 then 29 else hi - lo, ?_, hm1, hm12, by omega, ?_, ?_, hlo, ?_⟩
      · have e1 : ¬ 59 < yday := by omega
        have e2 : ¬ yday = 59 := by omega
        simp [e1, e2, hmd]
      · by_cases hm : m = 2
        · simp [daysIn, hm, hl]
        · simp [daysIn, hm, hlo, hhi, h6]
      · split_ifs with hm
        · have := h8 hm; omega
        · omega
      · have : ¬ (m > 2) := by omega
        simp [this]; omega
    · subst heq
      refine ⟨2, 29, 31, 29, by simp, by decide, by decide, by decide, ?_, le_refl _, by decide, ?_⟩
      · simp [daysIn, hl]
      · simp
    · obtain ⟨m, d, lo, hi, hmd, hlo, hhi, hm1, hm12, h3, h4, h5, h6, h7, h8⟩ :=
        absMonthDay_spec (yday - 1) (by omega) (by omega)
      have hm2 : 2 < m := by
        by_contra hc
        have := h7.1 (by omega)
        omega
      refine ⟨m, d, lo, hi - lo, ?_, hm1, hm12, by omega, ?_, by omega, hlo, ?_⟩
      · simp [hgt, hmd]
      · have hm : ¬ m = 2 := by omega
        simp [daysIn, hm, hlo, hhi, h6]
      · simp [hm2]; omega

/-- C2: for every 64-bit absolute time, `absDate abs true` returns a valid calendar
date: `1 ≤ month ≤ 12`, `1 ≤ day ≤ daysIn(month, year)`, and the day of year equals
`daysBefore[month-1] + (day - 1)`, plus one when the year is leap and `month > 2`. -/
theorem absDate_full_valid (abs : Nat) (h : abs < 2 ^ 64) :
    ∃ (r : Civil) (dim lo : Int), absDate abs true = some r ∧
      1 ≤ r.month ∧ r.month ≤ 12 ∧ 1 ≤ r.day ∧
      daysIn r.month r.year = some dim ∧ r.day ≤ dim ∧
      daysBeforeAt (r.month - 1) = some lo ∧
      r.yday = lo + (r.day - 1) + (if isLeap r.year && decide (r.month > 2) then 1 else 0) := by
  obtain ⟨m, d, lo, dim, he, h1, h2, h3, h4, h5, h6, h7⟩ := absDate_full_spec abs h
  exact ⟨_, dim, lo, he, h1, h2, h3, h4, h5, h6, h7⟩

theorem absDate_full_valid_witness :
    (1000000000000 : Nat) < 2 ^ 64 ∧
    ∃ (r : Civil) (dim lo : Int), absDate 1000000000000 true = some r ∧
      1 ≤ r.month ∧ r.month ≤ 12 ∧ 1 ≤ r.day ∧
      daysIn r.month r.year = some dim ∧ r.day ≤ dim ∧
      daysBeforeAt (r.month - 1) = some lo ∧
      r.yday = lo + (r.day - 1) + (if isLeap r.year && decide (r.month > 2) then 1 else 0) :=
  ⟨by decide, absDate_full_valid 1000000000000 (by decide)⟩

theorem daysBeforeYear_succ (year : Int) :
    daysBeforeYear (year + 1) = daysBeforeYear year + yearLength year := by
  have hl := isLeap_iff year
  unfold daysBeforeYear yearLength absoluteZeroYear
  split_ifs with h
  · rw [hl] at h; omega
  · rw [hl] at h; omega

theorem daysBeforeYear_mono (a b : Int) (h : a ≤ b) : daysBeforeYear a ≤ daysBeforeYear b := by
  unfold daysBeforeYear absoluteZeroYear
  omega

theorem absYearDay_unique (abs : Nat) (h : abs < 2 ^ 64) (year yd : Int)
    (h0 : 0 ≤ yd) (h1 : yd < yearLength year)
    (hd : ((abs / secondsPerDay : Nat) : Int) = daysBeforeYear year + yd) :
    absYearDay abs = (year, yd) := by
  have hs := absYearDay_spec abs h
  generalize absYearDay abs = p at hs ⊢
  obtain ⟨year', yd'⟩ := p
  obtain ⟨hy0, hy1, -, hsum⟩ := hs
  simp only at hy0 hy1 hsum
  have hsum' : daysBeforeYear year' + yd' = daysBeforeYear year + yd := by
    rw [← hd, ← hsum, daysBeforeYear]
  have e1 := daysBeforeYear_succ year
  have e2 := daysBeforeYear_succ year'
  have hy : year' = year := by
    rcases lt_trichotomy year' year with hlt | heq | hgt
    · have := daysBeforeYear_mono (year' + 1) year (by omega)
      linarith
    · exact heq
    · have := daysBeforeYear_mono (year + 1) year' (by omega)
      linarith
  subst hy
  have hyd : yd' = yd := by linarith
  rw [hyd]

/-- C3: for every year, `isLeap` holds exactly when `daysIn` gives February 29 days, and
the twelve month lengths of `daysIn` add up to 366 in a leap year and 365 otherwise. -/
theorem isLeap_iff_february_and_month_sum (y : Int) :
    (isLeap y = true ↔ daysIn 2 y = some 29) ∧
    ∃ ds : List Int,
      (List.range' 1 12).mapM (fun m : Nat => daysIn (m : Int) y) = some ds ∧
      ds.sum = if isLeap y then 366 else 365 := by
  cases hl : isLeap y with
  | false =>
    refine ⟨by simp [daysIn, hl]; decide, [31, 28, 31, 30, 31, 30, 31, 31, 30, 31, 30, 31], ?_, by decide⟩
    simp only [daysIn, hl]
    decide
  | true =>
    refine ⟨by simp [daysIn, hl], [31, 29, 31, 30, 31, 30, 31, 31, 30, 31, 30, 31], ?_, by decide⟩
    simp only [daysIn, hl]
    decide

theorem wrapInt64_range (x : Int) : -2 ^ 63 ≤ wrapInt64 x ∧ wrapInt64 x < 2 ^ 63 := by
  unfold wrapInt64; split_ifs <;> omega

theorem wrapInt64_idem (x : Int) : wrapInt64 (wrapInt64 x) = wrapInt64 x :=
  wrapInt64_of_range _ (wrapInt64_range x).1 (wrapInt64_range x).2

theorem toUint64_lt (x : Int) : toUint64 x < 2 ^ 64 := by
  unfold toUint64; omega

theorem locabs_lt (t : Time) : (locabs t).2 < 2 ^ 64 := toUint64_lt _

theorem Time.date_spec (t : Time) :
    ∃ c : Civil, t.date = some c ∧ 1 ≤ c.month ∧ c.month ≤ 12 := by
  obtain ⟨m, d, lo, dim, he, h1, h2, -⟩ := absDate_full_spec (locabs t).2 (locabs_lt t)
  exact ⟨_, he, h1, h2⟩

theorem yearsDays_some (t : Time) (y : Int) :
    ∃ d, yearsDays t y = some d ∧ wrapInt64 d = d := by
  obtain ⟨c, hc, -⟩ := Time.date_spec t
  unfold yearsDays
  by_cases hy : y = 0
  · exact ⟨0, by simp [hy], by decide⟩
  · by_cases hp : y > 0
    · simp [hy, hp, Time.Year, Time.Month, Time.Day, hc, wrapInt64_idem]
    · simp [hy, hp, Time.Year, Time.Month, Time.Day, hc, wrapInt64_idem]

theorem addMonthDays_twelve (j : JodaDate) (d : Int) (hd : yearsDays j.Date 1 = some d)
    (hw : wrapInt64 d = d) : addMonthDays j 12 = some d := by
  obtain ⟨c, hc, hm1, hm12⟩ := Time.date_spec j.Date
  obtain ⟨c1, hc1, -⟩ := Time.date_spec (j.Date.Add (wrapInt64 (wrapInt64 (24 * d) * Hour)))
  have e1 : (12 : Int).tdiv 12 = 1 := by decide
  have e2 : (12 : Int).tmod 12 = 0 := by decide
  simp only [addMonthDays, e1, e2, hd, Time.Month, Time.Year, Time.Day, hc, hc1,
    Option.bind_eq_bind, Option.some_bind, Option.map_some', add_zero, hw, Option.pure_def]
  by_cases h12 : c.month = 12
  · have a1 : daysBeforeAt 12 = some 365 := by decide
    have a2 : daysBeforeAt 0 = some 0 := by decide
    have a3 : wrapInt32 0 = 0 := by decide
    simp [h12, a1, a2, a3, wrapInt64_idem, hw]
  · have e3 : c.month.tmod 12 = c.month := Int.tmod_eq_of_lt (by omega) (by omega)
    simp [e3]

/-- C7: `AddMonth(12)` and `AddYear(1)` add the same number of days to every date (in
every month, December included), so they return the same `JodaDate`. -/
theorem AddMonth_twelve_eq_AddYear_one (j : JodaDate) :
    ∃ (d : Int) (r : JodaDate), yearsDays j.Date 1 = some d ∧ addMonthDays j 12 = some d ∧
      j.AddYear 1 = some r ∧ j.AddMonth 12 = some r := by
  obtain ⟨d, hd, hw⟩ := yearsDays_some j.Date 1
  have hm := addMonthDays_twelve j d hd hw
  exact ⟨d, ⟨j.Date.Add (wrapInt64 (wrapInt64 (24 * d) * Hour))⟩, hd, hm,
    by simp [JodaDate.AddYear, hd], by simp [JodaDate.AddMonth, hm]⟩

theorem Time.addSec_of_fits (t : Time) (d : Int) (hr : FitsSeconds (t.ext + d)) :
    t.addSec d = t.shift d := by
  obtain ⟨r0, r1⟩ := hr
  have hs : wrapInt64 (t.ext + d) = t.ext + d := wrapInt64_of_range _ r0 r1
  have hc : (decide (t.ext + d > t.ext) == decide (d > 0)) = true := by
    by_cases hd : d > 0
    · have : t.ext + d > t.ext := by omega
      simp [hd, this]
    · have : ¬ t.ext + d > t.ext := by omega
      simp [hd, this]
  simp only [Time.addSec, hs, hc, if_true, Time.shift]

theorem Time.Add_seconds (t : Time) (hwf : t.WF) (k : Int) (hr : FitsSeconds (t.ext + k)) :
    t.Add (k * 1000000000) = t.shift k := by
  obtain ⟨h0, h1, -, -⟩ := hwf
  have e1 : (k * 1000000000).tdiv 1000000000 = k := Int.mul_tdiv_cancel k (by decide)
  have e2 : (k * 1000000000).tmod 1000000000 = 0 := Int.mul_tmod_left k 1000000000
  have n1 : ¬ t.nsec ≥ 1000000000 := by omega
  have n2 : ¬ t.nsec < 0 := by omega
  simp only [Time.Add, e1, e2, add_zero, n1, n2, if_false]
  exact Time.addSec_of_fits _ k hr

theorem Time.Add_seconds_WF (t : Time) (hwf : t.WF) (k : Int)
    (hr : FitsSeconds (t.ext + k)) : (t.Add (k * 1000000000)).WF := by
  rw [Time.Add_seconds t hwf k hr]
  exact ⟨hwf.1, hwf.2.1, hr.1, hr.2⟩

theorem FixedAdd.apply_eq (j : JodaDate) (hwf : j.Date.WF) (op : FixedAdd)
    (hfit : FitsDuration op.seconds) (hr : FitsSeconds (j.Date.ext + op.seconds)) :
    (op.apply j).Date = j.Date.shift op.seconds := by
  obtain ⟨f1, f2⟩ := hfit
  cases op with
  | day n =>
    simp only [FixedAdd.seconds] at f1 f2 hr
    have e : wrapInt64 (wrapInt64 (n * 24) * Hour) = (86400 * n) * 1000000000 := by
      rw [wrapInt64_of_range (n * 24) (by omega) (by omega),
        wrapInt64_of_range _ (by simp only [Hour, Minute, Second, Nanosecond]; omega)
          (by simp only [Hour, Minute, Second, Nanosecond]; omega)]
      simp only [Hour, Minute, Second, Nanosecond]; ring
    simp only [FixedAdd.apply, JodaDate.AddDay, e, FixedAdd.seconds]
    exact Time.Add_seconds _ hwf _ hr
  | hour n =>
    simp only [FixedAdd.seconds] at f1 f2 hr
    have e : wrapInt64 (n * Hour) = (3600 * n) * 1000000000 := by
      rw [wrapInt64_of_range _ (by simp only [Hour, Minute, Second, Nanosecond]; omega)
          (by simp only [Hour, Minute, Second, Nanosecond]; omega)]
      simp only [Hour, Minute, Second, Nanosecond]; ring
    simp only [FixedAdd.apply, JodaDate.AddHour, e, FixedAdd.seconds]
    exact Time.Add_seconds _ hwf _ hr
  | minute n =>
    simp only [FixedAdd.seconds] at f1 f2 hr
    have e : wrapInt64 (n * Minute) = (60 * n) * 1000000000 := by
      rw [wrapInt64_of_range _ (by simp only [Minute, Second, Nanosecond]; omega)
          (by simp only [Minute, Second, Nanosecond]; omega)]
      simp only [Minute, Second, Nanosecond]; ring
    simp only [FixedAdd.apply, JodaDate.AddMinute, e, FixedAdd.seconds]
    exact Time.Add_seconds _ hwf _ hr
  | second n =>
    simp only [FixedAdd.seconds] at f1 f2 hr
    have e : wrapInt64 (n * Second) = n * 1000000000 := by
      rw [wrapInt64_of_range _ (by simp only [Second, Nanosecond]; omega)
          (by simp only [Second, Nanosecond]; omega)]
      simp only [Second, Nanosecond]; ring
    simp only [FixedAdd.apply, JodaDate.AddSecond, e, FixedAdd.seconds]
    exact Time.Add_seconds _ hwf _ hr
  | week n =>
    simp only [FixedAdd.seconds] at f1 f2 hr
    have e : wrapInt64 (wrapInt64 (wrapInt64 (n * 7) * 24) * Hour)
        = (604800 * n) * 1000000000 := by
      rw [wrapInt64_of_range (n * 7) (by omega) (by omega),
        wrapInt64_of_range (n * 7 * 24) (by omega) (by omega),
        wrapInt64_of_range _ (by simp only [Hour, Minute, Second, Nanosecond]; omega)
          (by simp only [Hour, Minute, Second, Nanosecond]; omega)]
      simp only [Hour, Minute, Second, Nanosecond]; ring
    simp only [FixedAdd.apply, JodaDate.AddWeek, e, FixedAdd.seconds]
    exact Time.Add_seconds _ hwf _ hr

theorem FixedAdd.foldl_eq (ops : List FixedAdd) :
    ∀ (j : JodaDate), j.Date.WF → (∀ op ∈ ops, FitsDuration op.seconds) →
      (∀ n, n ≤ ops.length →
        FitsSeconds (j.Date.ext + ((ops.take n).map FixedAdd.seconds).sum)) →
      (ops.foldl FixedAdd.apply j).Date = j.Date.shift (ops.map FixedAdd.seconds).sum := by
  induction ops with
  | nil => intro j _ _ _; simp [Time.shift]
  | cons op rest ih =>
    intro j hwf hfit hr
    have hr1 : FitsSeconds (j.Date.ext + op.seconds) := by
      have := hr 1 (by simp)
      simpa using this
    have h1 := FixedAdd.apply_eq j hwf op (hfit op (List.mem_cons_self _ _)) hr1
    have hwf1 : (op.apply j).Date.WF := by
      rw [h1]; exact ⟨hwf.1, hwf.2.1, hr1.1, hr1.2⟩
    have hr2 : ∀ n, n ≤ rest.length →
        FitsSeconds ((op.apply j).Date.ext + ((rest.take n).map FixedAdd.seconds).sum) := by
      intro n hn
      have := hr (n + 1) (by simp; omega)
      rw [h1]
      simpa [Time.shift, add_assoc] using this
    have h2 := ih (op.apply j) hwf1 (fun o ho => hfit o (List.mem_cons_of_mem _ ho)) hr2
    rw [List.foldl_cons, h2, h1]
    simp only [Time.shift, List.map_cons, List.sum_cons, add_assoc]

/-- C8, counterexample: at the last instant that a `time.Time` can hold (Unix second
9223371974719179007, read in UTC) the count `s = 1` fits a duration, and `AddSecond(1)`
returns the instant unchanged, because `Time.Add` saturates: the instant has not moved by
one second. -/
theorem AddSecond_saturates_at_last_instant :
    (unixTime 9223371974719179007 0 UTC).WF ∧ FitsDuration 1 ∧
    (JodaDate.mk (unixTime 9223371974719179007 0 UTC)).AddSecond 1
      = ⟨unixTime 9223371974719179007 0 UTC⟩ ∧
    ((JodaDate.mk (unixTime 9223371974719179007 0 UTC)).AddSecond 1).Date
      ≠ (unixTime 9223371974719179007 0 UTC).shift 1 :=
  ⟨by decide, by decide, by decide, by decide⟩

/-- C8, amended: the fixed-duration additions are exact and order-independent as long as
`Time.Add` does not saturate. For a date with well-formed fields and counts whose
durations fit 64 bits, applying `AddDay d`, `AddHour h`, `AddMinute mi`, `AddSecond s`
and `AddWeek w` in any order, such that the second count of every intermediate instant
fits an `int64`, moves the instant by exactly
`86400*d + 3600*h + 60*mi + s + 604800*w` seconds and changes nothing else; and
2001-03-01T00:00:00 (zone offset -8h) after
`AddDay(3).AddHour(7).AddMinute(15).AddSecond(59).AddWeek(2)` reads 2001-03-18T07:15:59. -/
theorem fixed_additions_exact (j : JodaDate) (hwf : j.Date.WF) (d h mi s w : Int)
    (hd : FitsDuration (86400 * d)) (hh : FitsDuration (3600 * h))
    (hmi : FitsDuration (60 * mi)) (hs : FitsDuration s) (hw : FitsDuration (604800 * w))
    (ops : List FixedAdd)
    (hperm : ops.Perm [.day d, .hour h, .minute mi, .second s, .week w])
    (hrange : ∀ n, n ≤ ops.length →
      FitsSeconds (j.Date.ext + ((ops.take n).map FixedAdd.seconds).sum)) :
    (ops.foldl FixedAdd.apply j).Date
        = j.Date.shift (86400 * d + 3600 * h + 60 * mi + s + 604800 * w) ∧
    (JodaDate.mk (unixTime 983433600 0 (FixedZone (-28800)))).civil
      = some (2001, 3, 1, 0, 0, 0) ∧
    ((((((JodaDate.mk (unixTime 983433600 0 (FixedZone (-28800)))).AddDay 3).AddHour
      7).AddMinute 15).AddSecond 59).AddWeek 2).civil = some (2001, 3, 18, 7, 15, 59) := by
  refine ⟨?_, by decide, by decide⟩
  have hfit : ∀ op ∈ ops, FitsDuration op.seconds := by
    intro op hop
    have hmem := (hperm.mem_iff).1 hop
    simp only [List.mem_cons, List.mem_singleton, List.not_mem_nil, or_false] at hmem
    rcases hmem with rfl | rfl | rfl | rfl | rfl
    · exact hd
    · exact hh
    · exact hmi
    · exact hs
    · exact hw
  rw [FixedAdd.foldl_eq ops j hwf hfit hrange, (hperm.map FixedAdd.seconds).sum_eq]
  simp only [List.map_cons, List.map_nil, List.sum_cons, List.sum_nil, FixedAdd.seconds,
    add_zero, add_assoc]

theorem fixed_additions_exact_witness :
    (JodaDate.mk (unixTime 983433600 0 (FixedZone (-28800)))).Date.WF ∧
    FitsDuration (86400 * 3) ∧ FitsDuration (3600 * 7) ∧ FitsDuration (60 * 15) ∧
    FitsDuration 59 ∧ FitsDuration (604800 * 2) ∧
    List.Perm [FixedAdd.week 2, .second 59, .day 3, .minute 15, .hour 7]
      [.day 3, .hour 7, .minute 15, .second 59, .week 2] ∧
    (∀ n, n ≤ [FixedAdd.week 2, .second 59, .day 3, .minute 15, .hour 7].length →
      FitsSeconds ((JodaDate.mk (unixTime 983433600 0 (FixedZone (-28800)))).Date.ext
        + (([FixedAdd.week 2, .second 59, .day 3, .minute 15, .hour 7].take n).map
            FixedAdd.seconds).sum)) ∧
    (([FixedAdd.week 2, .second 59, .day 3, .minute 15, .hour 7].foldl FixedAdd.apply
        (JodaDate.mk (unixTime 983433600 0 (FixedZone (-28800))))).Date
        = (JodaDate.mk (unixTime 983433600 0 (FixedZone (-28800)))).Date.shift
            (86400 * 3 + 3600 * 7 + 60 * 15 + 59 + 604800 * 2) ∧
    (JodaDate.mk (unixTime 983433600 0 (FixedZone (-28800)))).civil
      = some (2001, 3, 1, 0, 0, 0) ∧
    ((((((JodaDate.mk (unixTime 983433600 0 (FixedZone (-28800)))).AddDay 3).AddHour
      7).AddMinute 15).AddSecond 59).AddWeek 2).civil = some (2001, 3, 18, 7, 15, 59)) :=
  ⟨by decide, by decide, by decide, by decide, by decide, by decide, by decide, by decide,
    fixed_additions_exact _ (by decide) 3 7 15 59 2 (by decide) (by decide) (by decide)
      (by decide) (by decide) _ (by decide) (by decide)⟩

theorem absClock_spec (abs : Nat) :
    0 ≤ (absClock abs).1 ∧ (absClock abs).1 ≤ 23 ∧
    0 ≤ (absClock abs).2.1 ∧ (absClock abs).2.1 ≤ 59 ∧
    0 ≤ (absClock abs).2.2 ∧ (absClock abs).2.2 ≤ 59 ∧
    (absClock abs).1 * 3600 + (absClock abs).2.1 * 60 + (absClock abs).2.2
      = ((abs % secondsPerDay : Nat) : Int) := by
  have hlt : abs % secondsPerDay < 86400 := Nat.mod_lt _ (by decide)
  have e : toInt64 (abs % secondsPerDay) = ((abs % secondsPerDay : Nat) : Int) :=
    toInt64_of_lt _ (by omega)
  simp only [absClock, e, secondsPerHour, secondsPerMinute]
  generalize abs % secondsPerDay = r at hlt
  have e1 : (r : Int).tdiv ((60 * 60 : Nat) : Int) = (r : Int) / 3600 :=
    Int.tdiv_eq_ediv (by omega) (by decide)
  have e2 : ((r : Int) - (r : Int) / 3600 * ((60 * 60 : Nat) : Int)).tdiv ((60 : Nat) : Int)
      = ((r : Int) - (r : Int) / 3600 * 3600) / 60 :=
    Int.tdiv_eq_ediv (by push_cast; omega) (by decide)
  rw [e1, e2]
  push_cast
  omega

theorem absClock_congr (a b : Nat) (h : a % secondsPerDay = b % secondsPerDay) :
    absClock a = absClock b := by
  simp only [absClock, h]

theorem Time.Zone_UTC (t : Time) (h : t.loc = UTC) : t.Zone = 0 := by
  simp only [Time.Zone, h, UTC, Location.lookup, lookupFrom]

theorem Time.Zone_fixed (t : Time) (o : Int) (h : t.loc = FixedZone o) : t.Zone = o := by
  simp only [Time.Zone, h, FixedZone, Location.lookup, lookupFrom]

theorem Time.Zone_shift_fixed (t : Time) (o : Int) (h : t.loc = FixedZone o) (k : Int) :
    (t.shift k).Zone = t.Zone := by
  rw [Time.Zone_fixed t o h, Time.Zone_fixed (t.shift k) o h]

theorem locabs_eq (t : Time) :
    ((locabs t).2 : Int) = (t.ext + t.Zone + 9223371966579724800) % 2 ^ 64 := by
  have hC : unixToInternal + internalToAbsolute = 9223372028715321600 := by decide
  have hU : internalToUnix = -62135596800 := by decide
  by_cases h : t.loc = UTC
  · have hb : (t.loc != UTC) = false := by simp [h]
    simp only [locabs, hC, hb, Time.Zone_UTC t h, Time.Unix, hU, toUint64, wrapInt64,
      Bool.false_eq_true, if_false]
    split_ifs <;> omega
  · have hb : (t.loc != UTC) = true := by simp [h]
    simp only [locabs, hC, hb, Time.Unix, hU, toUint64, wrapInt64, if_true]
    generalize t.Zone = z
    split_ifs <;> omega

theorem locabs_shift (t : Time) (k : Int) (hz : (t.shift k).Zone = t.Zone)
    (h0 : 0 ≤ ((locabs t).2 : Int) + k) (h1 : ((locabs t).2 : Int) + k < 2 ^ 64) :
    (((locabs (t.shift k)).2 : Nat) : Int) = ((locabs t).2 : Int) + k := by
  rw [locabs_eq] at h0 h1 ⊢
  rw [locabs_eq, hz]
  have e : (t.shift k).ext = t.ext + k := rfl
  rw [e]
  generalize t.Zone = z at h0 h1 ⊢
  omega

theorem JodaDate.civil_some (j : JodaDate) (Y M D h mi s : Int)
    (hc : j.civil = some (Y, M, D, h, mi, s)) :
    ∃ yd, absDate (locabs j.Date).2 true = some ⟨Y, M, D, yd⟩ ∧
      absClock (locabs j.Date).2 = (h, mi, s) := by
  unfold JodaDate.civil Time.date Time.Clock at hc
  cases hd : absDate (locabs j.Date).2 true with
  | none => rw [hd] at hc; simp at hc
  | some c =>
    rw [hd] at hc
    simp only [Option.map_some', Option.some.injEq, Prod.mk.injEq] at hc
    obtain ⟨rfl, rfl, rfl, h1, h2, h3⟩ := hc
    exact ⟨c.yday, rfl, Prod.ext h1 (Prod.ext h2 h3)⟩

theorem absDate_full_days (abs : Nat) (h : abs < 2 ^ 64) (Y M D yd : Int)
    (hd : absDate abs true = some ⟨Y, M, D, yd⟩) :
    ∃ lo, daysBeforeAt (M - 1) = some lo ∧ 0 ≤ yd ∧ yd < yearLength Y ∧
      yd = lo + (D - 1) + (if isLeap Y && decide (M > 2) then 1 else 0) ∧
      ((abs / secondsPerDay : Nat) : Int) = daysBeforeYear Y + yd := by
  obtain ⟨m, d, lo, dim, he, -, -, -, -, -, hlo, hyd⟩ := absDate_full_spec abs h
  obtain ⟨hy0, hy1, -, hsum⟩ := absYearDay_spec abs h
  rw [he] at hd
  simp only [Option.some.injEq, Civil.mk.injEq] at hd
  obtain ⟨e1, e2, e3, e4⟩ := hd
  rw [e1] at hy1 hsum hyd
  rw [e4] at hy0 hy1 hsum hyd
  rw [e2] at hlo hyd
  rw [e3] at hyd
  exact ⟨lo, hlo, hy0, hy1, hyd, by rw [← hsum, daysBeforeYear]⟩

theorem absDate_of_days (abs : Nat) (h : abs < 2 ^ 64) (Y yd : Int)
    (h0 : 0 ≤ yd) (h1 : yd < yearLength Y)
    (hd : ((abs / secondsPerDay : Nat) : Int) = daysBeforeYear Y + yd) :
    absDate abs true =
      if isLeap Y then
        if yd > 31 + 29 - 1 then (absMonthDay (yd - 1)).map fun md => ⟨Y, md.1, md.2, yd⟩
        else if yd == 31 + 29 - 1 then some ⟨Y, 2, 29, yd⟩
        else (absMonthDay yd).map fun md => ⟨Y, md.1, md.2, yd⟩
      else (absMonthDay yd).map fun md => ⟨Y, md.1, md.2, yd⟩ := by
  have hu := absYearDay_unique abs h Y yd h0 h1 hd
  simp only [absDate, hu, Bool.not_true, Bool.false_eq_true, if_false]

theorem Time.Add_days (t : Time) (hwf : t.WF) (days : Int)
    (h0 : -106751 ≤ days) (h1 : days ≤ 106751) (hr : FitsSeconds (t.ext + 86400 * days)) :
    t.Add (wrapInt64 (wrapInt64 (24 * days) * Hour)) = t.shift (86400 * days) := by
  have e : wrapInt64 (wrapInt64 (24 * days) * Hour) = (86400 * days) * 1000000000 := by
    rw [wrapInt64_of_range (24 * days) (by omega) (by omega),
      wrapInt64_of_range _ (by simp only [Hour, Minute, Second, Nanosecond]; omega)
        (by simp only [Hour, Minute, Second, Nanosecond]; omega)]
    simp only [Hour, Minute, Second, Nanosecond]; ring
  rw [e]
  exact Time.Add_seconds t hwf _ hr

theorem Time.Add_zero_days (t : Time) (hwf : t.WF) :
    t.Add (wrapInt64 (wrapInt64 (24 * 0) * Hour)) = t := by
  rw [Time.Add_days t hwf 0 (by decide) (by decide)
    ⟨by simpa using hwf.2.2.1, by simpa using hwf.2.2.2⟩]
  simp [Time.shift]

set_option maxRecDepth 100000 in
/-- C10, counterexample: in the zone America/Sao_Paulo, whose offset changed from -2h to
-3h on 2018-02-18, `AddMonth(1)` applied to 2018-01-31 00:30:00 adds 31 days of 24 hours
and reads 2018-03-02 23:30:00: not March 3, although 2018 is not a leap year. -/
theorem AddMonth_jan31_across_offset_change :
    DateZone 2018 1 31 0 30 0 0 (some SaoPaulo)
      = some ⟨unixTime 1517365800 0 SaoPaulo⟩ ∧
    (JodaDate.mk (unixTime 1517365800 0 SaoPaulo)).Date.WF ∧
    (JodaDate.mk (unixTime 1517365800 0 SaoPaulo)).civil = some (2018, 1, 31, 0, 30, 0) ∧
    isLeap 2018 = false ∧
    (JodaDate.mk (unixTime 1517365800 0 SaoPaulo)).AddMonth 1
      = some ⟨(unixTime 1517365800 0 SaoPaulo).shift (86400 * 31)⟩ ∧
    (unixTime 1517365800 0 SaoPaulo).Zone = -7200 ∧
    ((unixTime 1517365800 0 SaoPaulo).shift (86400 * 31)).Zone = -10800 ∧
    ((JodaDate.mk (unixTime 1517365800 0 SaoPaulo)).AddMonth 1).bind JodaDate.civil
      = some (2018, 3, 2, 23, 30, 0) :=
  ⟨by decide, by decide, by decide, by decide, by decide, by decide, by decide, by decide⟩

/-- C10, amended: `AddMonth(1)` on January 31 of any year does not clamp to the end of
February. When the zone has the same offset 31 days later (as every fixed zone has) and
the second count of that later instant fits an `int64`, it adds exactly 31 days and the
result reads March 3 in a non-leap year and March 2 in a leap year, at the same time of
day. -/
theorem AddMonth_one_on_jan31_overflows (j : JodaDate) (hwf : j.Date.WF) (Y h mi s : Int)
    (hc : j.civil = some (Y, 1, 31, h, mi, s))
    (hz : (j.Date.shift (86400 * 31)).Zone = j.Date.Zone)
    (hrep : FitsSeconds (j.Date.ext + 86400 * 31)) :
    ∃ r : JodaDate, j.AddMonth 1 = some r ∧
      r.Date = j.Date.shift (86400 * 31) ∧
      r.civil = some (Y, 3, if isLeap Y then 2 else 3, h, mi, s) := by
  obtain ⟨yd, hdate, hclock⟩ := JodaDate.civil_some j Y 1 31 h mi s hc
  obtain ⟨lo, hlo, hyd0, hyd1, hyd, hdays⟩ :=
    absDate_full_days _ (locabs_lt j.Date) Y 1 31 yd hdate
  have hlo0 : lo = 0 := by
    have : daysBeforeAt (1 - 1) = some 0 := by decide
    rw [this] at hlo; exact (Option.some.inj hlo).symm
  have hyd30 : yd = 30 := by
    rw [hyd, hlo0]; simp
  subst hyd30
  -- the shifted instant is still an absolute time: the last one is in November
  have hr : (locabs j.Date).2 + 31 * 86400 < 2 ^ 64 := by
    have hlast : daysBeforeYear 292277026854 = 213503982334289 := by decide
    have hlt0 := locabs_lt j.Date
    have hdiv : (((locabs j.Date).2 / secondsPerDay : Nat) : Int) ≤ 213503982334601 := by
      simp only [secondsPerDay, secondsPerHour]; omega
    have hY : daysBeforeYear Y ≤ 213503982334289 := by
      by_contra hcon
      have hgt : 292277026854 + 1 ≤ Y := by
        by_contra hle
        have := daysBeforeYear_mono Y 292277026854 (by omega)
        omega
      have h1 := daysBeforeYear_mono _ _ hgt
      have h2 := daysBeforeYear_succ 292277026854
      have h3 : (365 : Int) ≤ yearLength 292277026854 := by decide
      omega
    have hmod := Nat.div_add_mod (locabs j.Date).2 secondsPerDay
    have hmlt : (locabs j.Date).2 % secondsPerDay < 86400 := Nat.mod_lt _ (by decide)
    simp only [secondsPerDay, secondsPerHour] at hdays hmod hmlt
    omega
  -- the code path of `AddMonth 1`
  have hyears : yearsDays j.Date 0 = some 0 := by simp [yearsDays]
  have hdt1 : j.Date.Add (wrapInt64 (wrapInt64 (24 * 0) * Hour)) = j.Date :=
    Time.Add_zero_days j.Date hwf
  have hfin : j.Date.Add (wrapInt64 (wrapInt64 (24 * 31) * Hour))
      = j.Date.shift (86400 * 31) :=
    Time.Add_days j.Date hwf 31 (by decide) (by decide) hrep
  have e1 : (1 : Int).tdiv 12 = 0 := by decide
  have e2 : ((1 : Int) + (1 : Int).tmod 12).tmod 12 = 2 := by decide
  have a1 : daysBeforeAt (2 - 1) = some 31 := by decide
  have a2 : daysBeforeAt (1 - 1) = some 0 := by decide
  have w1 : wrapInt64 (0 + wrapInt32 (31 - 0)) = 31 := by decide
  have w2 : wrapInt64 (31 + 0) = 31 := by decide
  have w3 : wrapInt64 31 = 31 := by decide
  have hdays31 : addMonthDays j 1 = some 31 := by
    unfold addMonthDays
    rw [e1, hyears]
    simp only [Option.bind_eq_bind, Option.some_bind, hdt1, Time.Month, Time.Year, Time.Day,
      Time.date, hdate, Option.map_some', e2, a1, a2, w1, w2, Option.pure_def]
    simp only [show ((1 : Int) < 2) = True from by decide, if_true, Option.some_bind,
      show decide ((2 : Int) > 2) = false from by decide, Bool.and_false, Bool.false_and,
      Bool.false_eq_true, if_false, w2, w3]
  have hadd : j.AddMonth 1 = some ⟨j.Date.shift (86400 * 31)⟩ := by
    simp only [JodaDate.AddMonth, hdays31, Option.bind_eq_bind, Option.some_bind, hfin,
      Option.pure_def]
  refine ⟨_, hadd, rfl, ?_⟩
  -- civil fields of the shifted instant
  have habs := locabs_shift j.Date (86400 * 31) hz (by omega) (by omega)
  have hlt := locabs_lt (j.Date.shift (86400 * 31))
  show JodaDate.civil ⟨j.Date.shift (86400 * 31)⟩ = _
  unfold JodaDate.civil Time.date Time.Clock
  simp only []
  generalize (locabs (j.Date.shift (86400 * 31))).2 = abs1 at habs hlt ⊢
  generalize (locabs j.Date).2 = abs0 at hdays hclock habs hr
  have hnat : abs1 = abs0 + 31 * 86400 := by omega
  have hd1 : ((abs1 / secondsPerDay : Nat) : Int) = daysBeforeYear Y + 61 := by
    have : abs1 / secondsPerDay = abs0 / secondsPerDay + 31 := by
      rw [hnat]; simp only [secondsPerDay, secondsPerHour]; omega
    rw [this, Nat.cast_add, hdays, Nat.cast_ofNat]; ring
  have hm1 : abs1 % secondsPerDay = abs0 % secondsPerDay := by
    rw [hnat]; simp only [secondsPerDay, secondsPerHour]; omega
  have hlen : (61 : Int) < yearLength Y := by unfold yearLength; split_ifs <;> decide
  have hdate1 := absDate_of_days abs1 hlt Y 61 (by decide) hlen hd1
  have hclock1 : absClock abs1 = (h, mi, s) := by rw [absClock_congr abs1 abs0 hm1, hclock]
  rw [hdate1, hclock1]
  cases hl : isLeap Y with
  | true =>
    have hmd : absMonthDay 60 = some (3, 2) := by decide
    simp [hmd]
  | false =>
    have hmd : absMonthDay 61 = some (3, 3) := by decide
    simp [hmd]

theorem AddMonth_one_on_jan31_overflows_witness :
    (JodaDate.mk (unixTime 1706738400 0 UTC)).Date.WF ∧
    (JodaDate.mk (unixTime 1706738400 0 UTC)).civil = some (2024, 1, 31, 22, 0, 0) ∧
    ((unixTime 1706738400 0 UTC).shift (86400 * 31)).Zone = (unixTime 1706738400 0 UTC).Zone ∧
    FitsSeconds ((unixTime 1706738400 0 UTC).ext + 86400 * 31) ∧
    ∃ r : JodaDate, (JodaDate.mk (unixTime 1706738400 0 UTC)).AddMonth 1 = some r ∧
      r.Date = (JodaDate.mk (unixTime 1706738400 0 UTC)).Date.shift (86400 * 31) ∧
      r.civil = some (2024, 3, if isLeap 2024 then 2 else 3, 22, 0, 0) :=
  ⟨by decide, by decide, by decide, by decide,
    AddMonth_one_on_jan31_overflows _ (by decide) 2024 22 0 0 (by decide) (by decide)
      (by decide)⟩

theorem locabs_Add_days (t : Time) (hwf : t.WF) (days : Int)
    (h0 : -106751 ≤ days) (h1 : days ≤ 106751)
    (hr : FitsSeconds (t.ext + 86400 * days))
    (hz : (t.shift (86400 * days)).Zone = t.Zone)
    (a0 : 0 ≤ ((locabs t).2 : Int) + 86400 * days)
    (a1 : ((locabs t).2 : Int) + 86400 * days < 2 ^ 64) :
    (((locabs (t.Add (wrapInt64 (wrapInt64 (24 * days) * Hour)))).2 : Nat) : Int)
      = ((locabs t).2 : Int) + 86400 * days := by
  rw [Time.Add_days t hwf days h0 h1 hr]
  exact locabs_shift t _ hz a0 a1

theorem Time.date_congr (t t0 : Time) (ha : (locabs t).2 = (locabs t0).2) :
    t.date = t0.date := by
  unfold Time.date; rw [ha]

theorem yearsDays_congr (t t0 : Time) (ha : (locabs t).2 = (locabs t0).2) (y : Int) :
    yearsDays t y = yearsDays t0 y := by
  simp only [yearsDays, Time.Year, Time.Month, Time.Day, Time.date_congr t t0 ha]

theorem addMonthDays_congr (j j0 : JodaDate) (ha : (locabs j.Date).2 = (locabs j0.Date).2)
    (m y : Int) (hy : yearsDays j0.Date (m.tdiv 12) = some y)
    (h1 : (locabs (j.Date.Add (wrapInt64 (wrapInt64 (24 * y) * Hour)))).2
      = (locabs (j0.Date.Add (wrapInt64 (wrapInt64 (24 * y) * Hour)))).2) :
    addMonthDays j m = addMonthDays j0 m := by
  have hy1 : yearsDays j.Date (m.tdiv 12) = some y := by
    rw [yearsDays_congr j.Date j0.Date ha]; exact hy
  have hd := Time.date_congr _ _ h1
  simp only [addMonthDays, hy, hy1, Option.bind_eq_bind, Option.some_bind, Time.Year,
    Time.Month, Time.Day, Time.date_congr j.Date j0.Date ha, hd]

theorem JodaDate.civil_congr (j j0 : JodaDate) (ha : (locabs j.Date).2 = (locabs j0.Date).2) :
    j.civil = j0.civil := by
  simp only [JodaDate.civil, Time.Clock, Time.date_congr j.Date j0.Date ha, ha]

theorem AddMonth_civil_congr (j j0 : JodaDate) (ha : (locabs j.Date).2 = (locabs j0.Date).2)
    (m y T : Int) (hy : yearsDays j0.Date (m.tdiv 12) = some y)
    (hT : addMonthDays j0 m = some T)
    (h1 : (locabs (j.Date.Add (wrapInt64 (wrapInt64 (24 * y) * Hour)))).2
      = (locabs (j0.Date.Add (wrapInt64 (wrapInt64 (24 * y) * Hour)))).2)
    (h2 : (locabs (j.Date.Add (wrapInt64 (wrapInt64 (24 * T) * Hour)))).2
      = (locabs (j0.Date.Add (wrapInt64 (wrapInt64 (24 * T) * Hour)))).2) :
    (j.AddMonth m).bind JodaDate.civil = (j0.AddMonth m).bind JodaDate.civil := by
  unfold JodaDate.AddMonth
  rw [addMonthDays_congr j j0 ha m y hy h1, hT]
  simp only [Option.bind_eq_bind, Option.some_bind, Option.pure_def]
  exact JodaDate.civil_congr _ _ h2

theorem abs_of_civil (j : JodaDate) (Y M D h mi s : Int)
    (hc : j.civil = some (Y, M, D, h, mi, s)) :
    ∃ lo, daysBeforeAt (M - 1) = some lo ∧
      (((locabs j.Date).2 : Nat) : Int)
        = (daysBeforeYear Y + (lo + (D - 1) + (if isLeap Y && decide (M > 2) then 1 else 0)))
            * 86400 + (h * 3600 + mi * 60 + s) := by
  obtain ⟨yd, hdate, hclock⟩ := JodaDate.civil_some j Y M D h mi s hc
  obtain ⟨lo, hlo, -, -, hyd, hdays⟩ := absDate_full_days _ (locabs_lt j.Date) Y M D yd hdate
  obtain ⟨-, -, -, -, -, -, hsum⟩ := absClock_spec (locabs j.Date).2
  rw [hclock] at hsum
  simp only at hsum
  refine ⟨lo, hlo, ?_⟩
  rw [← hyd, ← hdays, hsum]
  have := Nat.div_add_mod (locabs j.Date).2 secondsPerDay
  simp only [secondsPerDay, secondsPerHour] at this ⊢
  push_cast
  omega

set_option maxRecDepth 100000 in
/-- C9, counterexample: a fixed zone whose offset is about `-2^63` seconds. The instant
100 seconds before the last one that a `time.Time` can hold reads 2024-02-29 06:00:00 in
that zone; `AddMonth(3)` adds 90 days, `Time.Add` saturates, and the result reads
2024-02-29 06:01:40. -/
theorem leap_day_AddMonth_saturates :
    (unixTime 9223371974719178907 0 (FixedZone (-9223371973009992507))).WF ∧
    (JodaDate.mk (unixTime 9223371974719178907 0 (FixedZone (-9223371973009992507)))).civil
      = some (2024, 2, 29, 6, 0, 0) ∧
    addMonthDays ⟨unixTime 9223371974719178907 0 (FixedZone (-9223371973009992507))⟩ 3
      = some 90 ∧
    (JodaDate.mk (unixTime 9223371974719178907 0 (FixedZone (-9223371973009992507)))).AddMonth
      3 = some ⟨unixTime 9223371974719179007 0 (FixedZone (-9223371973009992507))⟩ ∧
    ((JodaDate.mk (unixTime 9223371974719178907 0
      (FixedZone (-9223371973009992507)))).AddMonth 3).bind JodaDate.civil
      = some (2024, 2, 29, 6, 1, 40) :=
  ⟨by decide, by decide, by decide, by decide, by decide⟩

/-- C9, amended: starting from 2024-02-29 06:00:00 in a fixed zone whose offset is at most
`2^62` seconds in magnitude, `AddMonth(3)` reads 2024-05-29 06:00:00 and `AddMonth(57)`
applied to the original reads 2028-11-29 06:00:00. -/
theorem leap_day_AddMonth_scenario (j : JodaDate) (hwf : j.Date.WF) (o : Int)
    (hz : j.Date.loc = FixedZone o) (ho1 : -2 ^ 62 ≤ o) (ho2 : o ≤ 2 ^ 62)
    (hc : j.civil = some (2024, 2, 29, 6, 0, 0)) :
    (j.AddMonth 3).bind JodaDate.civil = some (2024, 5, 29, 6, 0, 0) ∧
    (j.AddMonth 57).bind JodaDate.civil = some (2028, 11, 29, 6, 0, 0) := by
  obtain ⟨lo, hlo, habs⟩ := abs_of_civil j 2024 2 29 6 0 0 hc
  have hlo31 : lo = 31 := by
    have : daysBeforeAt (2 - 1) = some 31 := by decide
    rw [this] at hlo; exact (Option.some.inj hlo).symm
  have hN : daysBeforeYear 2024 = 106751991092817 := by decide
  have hite : (if isLeap 2024 && decide ((2 : Int) > 2) then (1 : Int) else 0) = 0 := by
    decide
  rw [hlo31, hN, hite] at habs
  have hA : (((locabs j.Date).2 : Nat) : Int) = 9223372030424508000 := by omega
  -- the second count of the instant
  have hext : j.Date.ext = 63844783200 - o := by
    have h1 := locabs_eq j.Date
    rw [hA, Time.Zone_fixed j.Date o hz] at h1
    obtain ⟨-, -, e0, e1⟩ := hwf
    omega
  -- the same instant of the day in the zone of offset 8
  have h0 : (locabs (JodaDate.mk (unixTime 1709186392 0 (FixedZone 8))).Date).2
      = 9223372030424508000 := by decide
  have hwf0 : (JodaDate.mk (unixTime 1709186392 0 (FixedZone 8))).Date.WF := by decide
  have hext0 :
      (JodaDate.mk (unixTime 1709186392 0 (FixedZone 8))).Date.ext = 63844783192 := by
    decide
  have ha : (locabs j.Date).2
      = (locabs (JodaDate.mk (unixTime 1709186392 0 (FixedZone 8))).Date).2 := by
    rw [h0]; omega
  have key : ∀ days : Int, 0 ≤ days → days ≤ 1735 →
      (locabs (j.Date.Add (wrapInt64 (wrapInt64 (24 * days) * Hour)))).2
        = (locabs ((JodaDate.mk (unixTime 1709186392 0 (FixedZone 8))).Date.Add
            (wrapInt64 (wrapInt64 (24 * days) * Hour)))).2 := by
    intro days d0 d1
    have e1 := locabs_Add_days j.Date hwf days (by omega) (by omega)
      ⟨by rw [hext]; omega, by rw [hext]; omega⟩ (Time.Zone_shift_fixed _ o hz _)
      (by rw [hA]; omega) (by rw [hA]; omega)
    have e2 := locabs_Add_days (JodaDate.mk (unixTime 1709186392 0 (FixedZone 8))).Date hwf0
      days (by omega) (by omega) ⟨by rw [hext0]; omega, by rw [hext0]; omega⟩
      (Time.Zone_shift_fixed _ 8 rfl _) (by rw [h0]; push_cast; omega)
      (by rw [h0]; push_cast; omega)
    rw [h0] at e2
    have : (((locabs (j.Date.Add (wrapInt64 (wrapInt64 (24 * days) * Hour)))).2 : Nat) : Int)
        = (((locabs ((JodaDate.mk (unixTime 1709186392 0 (FixedZone 8))).Date.Add
            (wrapInt64 (wrapInt64 (24 * days) * Hour)))).2 : Nat) : Int) := by
      rw [e1, e2, hA]; push_cast; ring
    exact_mod_cast this
  rw [AddMonth_civil_congr j ⟨unixTime 1709186392 0 (FixedZone 8)⟩ ha 3 0 90 (by decide)
      (by decide) (key 0 (by decide) (by decide)) (key 90 (by decide) (by decide)),
    AddMonth_civil_congr j ⟨unixTime 1709186392 0 (FixedZone 8)⟩ ha 57 1461 1735 (by decide)
      (by decide) (key 1461 (by decide) (by decide)) (key 1735 (by decide) (by decide))]
  exact ⟨by decide, by decide⟩

theorem leap_day_AddMonth_scenario_witness :
    (JodaDate.mk (unixTime 1709186392 0 (FixedZone 8))).Date.WF ∧
    (JodaDate.mk (unixTime 1709186392 0 (FixedZone 8))).Date.loc = FixedZone 8 ∧
    -2 ^ 62 ≤ (8 : Int) ∧ (8 : Int) ≤ 2 ^ 62 ∧
    (JodaDate.mk (unixTime 1709186392 0 (FixedZone 8))).civil = some (2024, 2, 29, 6, 0, 0) ∧
    ((JodaDate.mk (unixTime 1709186392 0 (FixedZone 8))).AddMonth 3).bind JodaDate.civil
      = some (2024, 5, 29, 6, 0, 0) ∧
    ((JodaDate.mk (unixTime 1709186392 0 (FixedZone 8))).AddMonth 57).bind JodaDate.civil
      = some (2028, 11, 29, 6, 0, 0) :=
  ⟨by decide, rfl, by decide, by decide, by decide,
    leap_day_AddMonth_scenario _ (by decide) 8 rfl (by decide) (by decide) (by decide)⟩

/-- C4, evaluated at a failing input: for 2023-01-08 (`DateDay(2023, 1, 8)`) and one
year, `yearsDays` returns 366 while 2024-01-08 is 365 days later, so `AddYear(1)` reads
2024-01-09. -/
theorem yearsDays_january_into_leap_year :
    (JodaDate.mk (unixTime 1673135992 0 (FixedZone 8))).civil = some (2023, 1, 8, 0, 0, 0) ∧
    yearsDays (unixTime 1673135992 0 (FixedZone 8)) 1 = some 366 ∧
    civilDayNumber 2024 1 8 - civilDayNumber 2023 1 8 = 365 ∧
    ((JodaDate.mk (unixTime 1673135992 0 (FixedZone 8))).AddYear 1).bind JodaDate.civil
      = some (2024, 1, 9, 0, 0, 0) :=
  ⟨by decide, by decide, by decide, by decide⟩

/-- C5, evaluated at a failing input: for 2023-11-08 06:00:00 (`DateHour(2023, 11, 8, 6)`)
and one month, `AddMonth` adds 31 days while 2023-12-08 is 30 days later, so the result
reads 2023-12-09 06:00:00; the three dates of the tests come out as expected. -/
theorem AddMonth_november_plus_one :
    (JodaDate.mk (unixTime 1699423192 0 (FixedZone 8))).civil = some (2023, 11, 8, 6, 0, 0) ∧
    addMonthDays ⟨unixTime 1699423192 0 (FixedZone 8)⟩ 1 = some 31 ∧
    civilDayNumber 2023 12 8 - civilDayNumber 2023 11 8 = 30 ∧
    ((JodaDate.mk (unixTime 1699423192 0 (FixedZone 8))).AddMonth 1).bind JodaDate.civil
      = some (2023, 12, 9, 6, 0, 0) ∧
    (JodaDate.mk (unixTime 1683525592 0 (FixedZone 8))).civil = some (2023, 5, 8, 6, 0, 0) ∧
    ((JodaDate.mk (unixTime 1683525592 0 (FixedZone 8))).AddMonth 8).bind JodaDate.civil
      = some (2024, 1, 8, 6, 0, 0) ∧
    ((JodaDate.mk (unixTime 1683525592 0 (FixedZone 8))).AddMonth 17).bind JodaDate.civil
      = some (2024, 10, 8, 6, 0, 0) ∧
    (JodaDate.mk (unixTime 1704693592 0 (FixedZone 8))).civil = some (2024, 1, 8, 6, 0, 0) ∧
    ((JodaDate.mk (unixTime 1704693592 0 (FixedZone 8))).AddMonth 56).bind JodaDate.civil
      = some (2028, 9, 8, 6, 0, 0) :=
  ⟨by decide, by decide, by decide, by decide, by decide, by decide, by decide, by decide,
    by decide⟩

/-- C6, evaluated at a failing input: for 2024-01-01 (`DateDay(2024, 1, 1)`) and
`n = -1`, `AddYear(-1)` subtracts 366 days and reads 2022-12-31, and `AddYear(1)` applied
to that adds 365 days and reads 2023-12-31, not the original date. -/
theorem AddYear_round_trip_january_first :
    (JodaDate.mk (unixTime 1704067192 0 (FixedZone 8))).civil = some (2024, 1, 1, 0, 0, 0) ∧
    yearsDays (unixTime 1704067192 0 (FixedZone 8)) (-1) = some (-366) ∧
    ((JodaDate.mk (unixTime 1704067192 0 (FixedZone 8))).AddYear (-1)).bind JodaDate.civil
      = some (2022, 12, 31, 0, 0, 0) ∧
    (((JodaDate.mk (unixTime 1704067192 0 (FixedZone 8))).AddYear (-1)).bind
      fun r => r.AddYear 1) = some ⟨unixTime (1704067192 - 86400) 0 (FixedZone 8)⟩ ∧
    (((JodaDate.mk (unixTime 1704067192 0 (FixedZone 8))).AddYear (-1)).bind
      fun r => r.AddYear 1).bind JodaDate.civil = some (2023, 12, 31, 0, 0, 0) :=
  ⟨by decide, by decide, by decide, by decide, by decide⟩

/-! ## Further properties of the calendar arithmetic -/

/-- C20: for every absolute time, `absClock` returns an hour in `0..23`, a minute and a
second in `0..59`, and `hour*3600 + min*60 + sec` is `abs mod 86400`. -/
theorem absClock_decomposition (abs : Nat) :
    0 ≤ (absClock abs).1 ∧ (absClock abs).1 ≤ 23 ∧
    0 ≤ (absClock abs).2.1 ∧ (absClock abs).2.1 ≤ 59 ∧
    0 ≤ (absClock abs).2.2 ∧ (absClock abs).2.2 ≤ 59 ∧
    (absClock abs).1 * 3600 + (absClock abs).2.1 * 60 + (absClock abs).2.2
      = ((abs % 86400 : Nat) : Int) := by
  have h := absClock_spec abs
  simp only [secondsPerDay, secondsPerHour] at h
  exact h

/-- C14: for every 64-bit absolute time, `absDate abs true` returns February 29 exactly
when the year is a leap year and the day of year is 59. -/
theorem absDate_leap_day_iff (abs : Nat) (h : abs < 2 ^ 64) :
    ∃ r : Civil, absDate abs true = some r ∧
      ((r.month = 2 ∧ r.day = 29) ↔ (isLeap r.year = true ∧ r.yday = 59)) := by
  obtain ⟨m, d, lo, dim, he, h1, h2, h3, hdim, hle, hlo, hyd⟩ := absDate_full_spec abs h
  refine ⟨_, he, ?_⟩
  simp only
  constructor
  · rintro ⟨rfl, rfl⟩
    have a1 : daysBeforeAt (2 - 1) = some 31 := by decide
    rw [a1] at hlo
    have hlo31 : lo = 31 := (Option.some.inj hlo).symm
    cases hl : isLeap (absYearDay abs).1 with
    | true =>
      rw [hl, hlo31] at hyd
      simp only [gt_iff_lt, lt_self_iff_false, decide_False, Bool.and_false,
        Bool.false_eq_true, if_false] at hyd
      exact ⟨rfl, by rw [hyd]; decide⟩
    | false =>
      have hd2 : daysIn 2 (absYearDay abs).1 = some 28 := by
        simp only [daysIn, hl]; decide
      rw [hd2] at hdim
      have := Option.some.inj hdim
      omega
  · rintro ⟨hl, hy59⟩
    have hs : absDate abs true
        = some ⟨(absYearDay abs).1, 2, 29, (absYearDay abs).2⟩ := by
      have n1 : ¬ ((59 : Int) > 31 + 29 - 1) := by decide
      have n2 : ((59 : Int) == 31 + 29 - 1) = true := by decide
      simp only [absDate, hl, hy59, Bool.not_true, Bool.false_eq_true, if_false, if_true, n1, n2]
    rw [he] at hs
    simp only [Option.some.injEq, Civil.mk.injEq, true_and, and_true] at hs
    exact hs

theorem absDate_leap_day_iff_witness :
    (9223372030424508000 : Nat) < 2 ^ 64 ∧
    ∃ r : Civil, absDate 9223372030424508000 true = some r ∧
      ((r.month = 2 ∧ r.day = 29) ↔ (isLeap r.year = true ∧ r.yday = 59)) :=
  ⟨by decide, absDate_leap_day_iff 9223372030424508000 (by decide)⟩

theorem absYearDay_year_range (abs : Nat) (h : abs < 2 ^ 64) :
    absoluteZeroYear ≤ (absYearDay abs).1 ∧ (absYearDay abs).1 ≤ 292277026854 := by
  obtain ⟨hy0, -, hy, hsum⟩ := absYearDay_spec abs h
  have hd : ((abs / secondsPerDay : Nat) : Int) ≤ 213503982334601 := by
    simp only [secondsPerDay, secondsPerHour]; omega
  generalize (absYearDay abs).1 = year at *
  generalize (absYearDay abs).2 = yday at *
  generalize ((abs / secondsPerDay : Nat) : Int) = dd at *
  unfold absoluteZeroYear at *
  omega

theorem tdiv_eq_cases (a b : Int) (hb : 0 < b) :
    a.tdiv b = if 0 ≤ a then a / b else -((-a) / b) := by
  split_ifs with h
  · exact Int.tdiv_eq_ediv h (le_of_lt hb)
  · have h1 : (-a).tdiv b = (-a) / b := Int.tdiv_eq_ediv (by omega) (le_of_lt hb)
    rw [← h1, Int.neg_tdiv, neg_neg]

theorem yearsDays_pos (t : Time) (Y M D yd n : Int)
    (he : t.date = some ⟨Y, M, D, yd⟩) (hn : 0 < n) (hw : wrapInt64 (Y + n) = Y + n) :
    yearsDays t n = some (wrapInt64
      (((Y + n).tdiv 4 - Y.tdiv 4) - ((Y + n).tdiv 100 - Y.tdiv 100)
        + ((Y + n).tdiv 400 - Y.tdiv 400)
        + (if isLeap Y && !isLeap (Y + n) && (M == 1 || (M == 2 && decide (D < 29)))
            then 1 else 0)
        + 365 * n)) := by
  have hn0 : ¬ n = 0 := by omega
  have hneg : ¬ n < 0 := by omega
  simp only [yearsDays, Time.Year, Time.Month, Time.Day, he, hw,
    Option.map_some', Option.bind_eq_bind, Option.some_bind, beq_iff_eq, hn0,
    if_false, hneg, gt_iff_lt, hn, if_true, Option.pure_def]

theorem yearsDays_neg (t : Time) (Y M D yd n : Int)
    (he : t.date = some ⟨Y, M, D, yd⟩) (hn : n < 0) (hw : wrapInt64 (Y + n) = Y + n) :
    yearsDays t n = some (wrapInt64 (-(wrapInt64
      ((Y.tdiv 4 - (Y + n).tdiv 4) - (Y.tdiv 100 - (Y + n).tdiv 100)
        + (Y.tdiv 400 - (Y + n).tdiv 400)
        + (if isLeap (Y + n) && !isLeap Y && (M == 1 || (M == 2 && decide (D < 29)))
            then 1 else 0)
        + 365 * (-n))))) := by
  have hn0 : ¬ n = 0 := by omega
  have hpos : ¬ 0 < n := by omega
  simp only [yearsDays, Time.Year, Time.Month, Time.Day, he, hw,
    Option.map_some', Option.bind_eq_bind, Option.some_bind, beq_iff_eq, hn0,
    if_false, hn, gt_iff_lt, hpos, if_true, Option.pure_def]

/-- C13: the day delta of `yearsDays` has the sign of the year count: it is 0 for 0,
positive for a positive count and negative for a negative count (for counts of at most
`2^54` in magnitude, within which no `int` operation overflows). -/
theorem yearsDays_sign (t : Time) (n : Int) (h1 : -2 ^ 54 ≤ n) (h2 : n ≤ 2 ^ 54) :
    ∃ d : Int, yearsDays t n = some d ∧
      (n = 0 → d = 0) ∧ (0 < n → 0 < d) ∧ (n < 0 → d < 0) := by
  obtain ⟨m, dy, lo, dim, he, -⟩ := absDate_full_spec (locabs t).2 (locabs_lt t)
  obtain ⟨hr1, hr2⟩ := absYearDay_year_range (locabs t).2 (locabs_lt t)
  generalize (absYearDay (locabs t).2).1 = Y at *
  generalize (absYearDay (locabs t).2).2 = yd at *
  unfold absoluteZeroYear at hr1
  have c4 := fun a => tdiv_eq_cases a 4 (by decide)
  have c100 := fun a => tdiv_eq_cases a 100 (by decide)
  have c400 := fun a => tdiv_eq_cases a 400 (by decide)
  have hw : wrapInt64 (Y + n) = Y + n := wrapInt64_of_range _ (by omega) (by omega)
  rcases lt_trichotomy n 0 with hneg | hn0 | hp
  · refine ⟨_, yearsDays_neg t Y m dy yd n he hneg hw, fun h => absurd h (by omega),
      fun h => absurd h (by omega), fun _ => ?_⟩
    rw [wrapInt64_of_range, wrapInt64_of_range]
    all_goals
      try rw [wrapInt64_of_range]
      all_goals
        simp only [c4, c100, c400]
        split_ifs <;> omega
  · subst hn0
    exact ⟨0, by simp [yearsDays], fun _ => rfl, fun h => absurd h (by decide),
      fun h => absurd h (by decide)⟩
  · refine ⟨_, yearsDays_pos t Y m dy yd n he hp hw, fun h => absurd h (by omega),
      fun _ => ?_, fun h => absurd h (by omega)⟩
    rw [wrapInt64_of_range]
    all_goals
      simp only [c4, c100, c400]
      split_ifs <;> omega

theorem yearsDays_sign_witness :
    (-2 ^ 54 : Int) ≤ 292 ∧ (292 : Int) ≤ 2 ^ 54 ∧
    ∃ d : Int, yearsDays (unixTime 1625270392 0 (FixedZone 8)) 292 = some d ∧
      ((292 : Int) = 0 → d = 0) ∧ ((0 : Int) < 292 → 0 < d) ∧ ((292 : Int) < 0 → d < 0) :=
  ⟨by decide, by decide,
    yearsDays_sign (unixTime 1625270392 0 (FixedZone 8)) 292 (by decide) (by decide)⟩

set_option maxRecDepth 100000 in
theorem absMonthDay_inverse_table : ∀ m : Nat, m < 12 → ∀ d : Nat, d < 31 →
    (daysBeforeAt (m : Int)).any (fun lo => (daysBeforeAt ((m : Int) + 1)).any (fun hi =>
      decide ((lo + (d : Int) < hi → absMonthDay (lo + (d : Int)) = some ((m : Int) + 1, (d : Int) + 1)) ∧
        0 ≤ lo ∧ lo < hi ∧ hi ≤ 365 ∧ hi - lo ≤ 31 ∧ (2 ≤ m → 59 ≤ lo) ∧ (m < 2 → hi ≤ 59) ∧
        (m = 1 → hi - lo = 28)))) = true := by
  decide

theorem absMonthDay_inverse (M D lo hi : Int) (hM1 : 1 ≤ M) (hM12 : M ≤ 12)
    (hlo : daysBeforeAt (M - 1) = some lo) (hhi : daysBeforeAt M = some hi) (hD1 : 1 ≤ D) :
    (lo + (D - 1) < hi → absMonthDay (lo + (D - 1)) = some (M, D)) ∧
      0 ≤ lo ∧ lo < hi ∧ hi ≤ 365 ∧ hi - lo ≤ 31 ∧ (3 ≤ M → 59 ≤ lo) ∧ (M ≤ 2 → hi ≤ 59) ∧
      (M = 2 → hi - lo = 28) := by
  obtain ⟨m, rfl⟩ : ∃ m : Nat, M = (m : Int) + 1 := ⟨(M - 1).toNat, by omega⟩
  have hm : m < 12 := by omega
  have e1 : (m : Int) + 1 - 1 = (m : Int) := by omega
  rw [e1] at hlo
  by_cases hD : lo + (D - 1) < hi
  · have hb := absMonthDay_inverse_table m hm
    -- bounds of the table entry first, to bound the day
    have h0 := hb 0 (by decide)
    rw [hlo, hhi] at h0
    simp only [Option.any_some, decide_eq_true_eq] at h0
    obtain ⟨d, rfl⟩ : ∃ d : Nat, D = (d : Int) + 1 := ⟨(D - 1).toNat, by omega⟩
    have hd : d < 31 := by omega
    have h1 := hb d hd
    rw [hlo, hhi] at h1
    simp only [Option.any_some, decide_eq_true_eq] at h1
    have e2 : (d : Int) + 1 - 1 = (d : Int) := by omega
    rw [e2] at hD ⊢
    refine ⟨fun _ => h1.1 hD, h1.2.1, h1.2.2.1, h1.2.2.2.1, h1.2.2.2.2.1, ?_, ?_, ?_⟩
    · intro h3; exact h1.2.2.2.2.2.1 (by omega)
    · intro h3; exact h1.2.2.2.2.2.2.1 (by omega)
    · intro h3; exact h1.2.2.2.2.2.2.2 (by omega)
  · have h0 := absMonthDay_inverse_table m hm 0 (by decide)
    rw [hlo, hhi] at h0
    simp only [Option.any_some, decide_eq_true_eq] at h0
    refine ⟨fun h => absurd h hD, h0.2.1, h0.2.2.1, h0.2.2.2.1, h0.2.2.2.2.1, ?_, ?_, ?_⟩
    · intro h3; exact h0.2.2.2.2.2.1 (by omega)
    · intro h3; exact h0.2.2.2.2.2.2.1 (by omega)
    · intro h3; exact h0.2.2.2.2.2.2.2 (by omega)

theorem daysBeforeAt_some (M : Int) (hM0 : 0 ≤ M) (hM12 : M ≤ 12) :
    ∃ v, daysBeforeAt M = some v := by
  obtain ⟨m, rfl⟩ : ∃ m : Nat, M = (m : Int) := ⟨M.toNat, by omega⟩
  have hm : m < 13 := by omega
  have : ∀ k : Nat, k < 13 → (daysBeforeAt (k : Int)).isSome = true := by decide
  exact Option.isSome_iff_exists.1 (this m hm)

theorem daysIn_eq (M Y lo hi : Int) (hlo : daysBeforeAt (M - 1) = some lo)
    (hhi : daysBeforeAt M = some hi) (h : -2 ^ 31 ≤ hi - lo ∧ hi - lo < 2 ^ 31) :
    daysIn M Y = some (if M = 2 ∧ isLeap Y = true then 29 else hi - lo) := by
  unfold daysIn
  by_cases hc : M = 2 ∧ isLeap Y = true
  · simp [hc.1, hc.2]
  · have : (M == 2 && isLeap Y) = false := by
      rcases not_and_or.1 hc with h1 | h1
      · simp [h1]
      · simp [h1]
    rw [this]
    simp only [Bool.false_eq_true, if_false, hlo, hhi, Option.bind_eq_bind, Option.some_bind,
      Option.pure_def, if_neg hc, wrapInt32_of_range _ h.1 h.2]

theorem absDate_of_civil (abs : Nat) (h : abs < 2 ^ 64) (Y M D lo dim : Int)
    (hM1 : 1 ≤ M) (hM12 : M ≤ 12) (hD1 : 1 ≤ D)
    (hdim : daysIn M Y = some dim) (hD : D ≤ dim) (hlo : daysBeforeAt (M - 1) = some lo)
    (hd : ((abs / secondsPerDay : Nat) : Int)
      = daysBeforeYear Y + (lo + (D - 1) + (if isLeap Y && decide (M > 2) then 1 else 0))) :
    absDate abs true
      = some ⟨Y, M, D, lo + (D - 1) + (if isLeap Y && decide (M > 2) then 1 else 0)⟩ := by
  obtain ⟨hi, hhi⟩ := daysBeforeAt_some M (by omega) hM12
  obtain ⟨hinv, t0, t1, t2, t3, t4, t5, t6⟩ := absMonthDay_inverse M D lo hi hM1 hM12 hlo hhi hD1
  rw [daysIn_eq M Y lo hi hlo hhi (by omega)] at hdim
  have hdim' := Option.some.inj hdim
  cases hl : isLeap Y with
  | false =>
    simp only [hl, Bool.false_and, Bool.false_eq_true, if_false, and_false, add_zero]
      at hd hdim' ⊢
    have hlt : lo + (D - 1) < hi := by omega
    rw [absDate_of_days abs h Y (lo + (D - 1)) (by omega)
      (by unfold yearLength; rw [hl]; simp only [Bool.false_eq_true, if_false]; omega) hd]
    simp only [hl, Bool.false_eq_true, if_false, hinv hlt, Option.map_some']
  | true =>
    simp only [hl, Bool.true_and, and_true] at hd hdim' ⊢
    by_cases h3 : M > 2
    · have hM2 : ¬ M = 2 := by omega
      simp only [h3, decide_True, if_true, hM2, if_false] at hd hdim' ⊢
      have hlt : lo + (D - 1) < hi := by omega
      have := t4 (by omega)
      rw [absDate_of_days abs h Y (lo + (D - 1) + 1) (by omega)
        (by unfold yearLength; rw [hl]; simp only [if_true]; omega) hd]
      have g1 : lo + (D - 1) + 1 > 31 + 29 - 1 := by omega
      simp only [hl, if_true, g1, add_sub_cancel_right, hinv hlt, Option.map_some']
    · simp only [h3, decide_False, Bool.false_eq_true, if_false, add_zero] at hd ⊢
      have := t5 (by omega)
      by_cases h2 : M = 2
      · simp only [h2, if_true] at hdim'
        have hlo31 : lo = 31 := by
          have a1 : daysBeforeAt (2 - 1) = some 31 := by decide
          rw [h2, a1] at hlo; exact (Option.some.inj hlo).symm
        have := t6 h2
        rw [absDate_of_days abs h Y (lo + (D - 1)) (by omega)
          (by unfold yearLength; rw [hl]; simp only [if_true]; omega) hd]
        by_cases h29 : D = 29
        · subst h29; subst hlo31; subst h2
          have g1 : ¬ ((31 : Int) + (29 - 1) > 31 + 29 - 1) := by decide
          have g2 : ((31 : Int) + (29 - 1) == 31 + 29 - 1) = true := by decide
          simp only [hl, if_true, g1, if_false, g2]
        · have hlt : lo + (D - 1) < hi := by omega
          have g1 : ¬ (lo + (D - 1) > 31 + 29 - 1) := by omega
          have g2 : (lo + (D - 1) == 31 + 29 - 1) = false := by
            rw [beq_eq_false_iff_ne]; omega
          simp only [hl, if_true, g1, if_false, g2, Bool.false_eq_true, hinv hlt, Option.map_some']
      · simp only [h2, if_false] at hdim'
        have hlt : lo + (D - 1) < hi := by omega
        rw [absDate_of_days abs h Y (lo + (D - 1)) (by omega)
          (by unfold yearLength; rw [hl]; simp only [if_true]; omega) hd]
        have g1 : ¬ (lo + (D - 1) > 31 + 29 - 1) := by omega
        have g2 : (lo + (D - 1) == 31 + 29 - 1) = false := by
          rw [beq_eq_false_iff_ne]; omega
        simp only [hl, if_true, g1, if_false, g2, Bool.false_eq_true, hinv hlt, Option.map_some']

theorem daysBeforeYear_zero : daysBeforeYear absoluteZeroYear = 0 := by decide

theorem daysBeforeYear_last : daysBeforeYear 292277026854 = 213503982334289 := by decide

theorem civil_shift_days (j : JodaDate) (Y M D h mi s : Int)
    (hc : j.civil = some (Y, M, D, h, mi, s)) (days Y' M' D' lo' dim' : Int)
    (hM1 : 1 ≤ M') (hM12 : M' ≤ 12) (hD1 : 1 ≤ D')
    (hdim : daysIn M' Y' = some dim') (hD : D' ≤ dim') (hlo : daysBeforeAt (M' - 1) = some lo')
    (hY0 : absoluteZeroYear ≤ Y') (hY1 : Y' < 292277026854)
    (hnum : civilDayNumber Y' M' D' = civilDayNumber Y M D + days)
    (hz : (j.Date.shift (86400 * days)).Zone = j.Date.Zone) :
    JodaDate.civil ⟨j.Date.shift (86400 * days)⟩ = some (Y', M', D', h, mi, s) := by
  obtain ⟨lo, hlo0, habs⟩ := abs_of_civil j Y M D h mi s hc
  obtain ⟨yd, hdate, hclock⟩ := JodaDate.civil_some j Y M D h mi s hc
  obtain ⟨-, -, -, -, -, -, hsum⟩ := absClock_spec (locabs j.Date).2
  rw [hclock] at hsum
  simp only at hsum
  have htod : (0 : Int) ≤ h * 3600 + mi * 60 + s ∧ h * 3600 + mi * 60 + s < 86400 := by
    have := Nat.mod_lt (locabs j.Date).2 (show secondsPerDay > 0 by decide)
    simp only [secondsPerDay, secondsPerHour] at this hsum
    omega
  -- day number of the target date
  obtain ⟨hi', hhi'⟩ := daysBeforeAt_some M' (by omega) hM12
  obtain ⟨-, t0, t1, t2, t3, -, -, t6⟩ :=
    absMonthDay_inverse M' D' lo' hi' hM1 hM12 hlo hhi' hD1
  rw [daysIn_eq M' Y' lo' hi' hlo hhi' (by omega)] at hdim
  have hdim' := Option.some.inj hdim
  have hnum' : daysBeforeYear Y' + (lo' + (D' - 1)
        + (if isLeap Y' && decide (M' > 2) then 1 else 0))
      = daysBeforeYear Y + (lo + (D - 1) + (if isLeap Y && decide (M > 2) then 1 else 0))
        + days := by
    simp only [civilDayNumber, hlo, hlo0, Option.getD_some] at hnum
    omega
  have hadj : (0 : Int) ≤ (if isLeap Y' && decide (M' > 2) then 1 else 0) ∧
      (if isLeap Y' && decide (M' > 2) then (1 : Int) else 0) ≤ 1 := by
    split_ifs <;> omega
  have hord : lo' + (D' - 1) + (if isLeap Y' && decide (M' > 2) then 1 else 0) ≤ 365 := by
    by_cases hc2 : M' = 2 ∧ isLeap Y' = true
    · have := t6 hc2.1
      have h2 : ¬ M' > 2 := by omega
      simp only [hc2.1, hc2.2, and_self, if_true] at hdim'
      simp only [h2, decide_False, Bool.and_false, Bool.false_eq_true, if_false] at hadj ⊢
      have a1 : daysBeforeAt (2 - 1) = some 31 := by decide
      rw [hc2.1, a1] at hlo
      have := Option.some.inj hlo
      omega
    · rw [if_neg hc2] at hdim'
      omega
  have hb0 := daysBeforeYear_mono _ _ hY0
  rw [daysBeforeYear_zero] at hb0
  have hb1 := daysBeforeYear_mono (Y' + 1) 292277026854 (by omega)
  rw [daysBeforeYear_last] at hb1
  have hsucc := daysBeforeYear_succ Y'
  have hlen : (365 : Int) ≤ yearLength Y' := by unfold yearLength; split_ifs <;> decide
  -- the shifted absolute time
  have hshift := locabs_shift j.Date (86400 * days) hz (by rw [habs]; omega)
    (by rw [habs]; omega)
  have hlt := locabs_lt (j.Date.shift (86400 * days))
  unfold JodaDate.civil Time.date Time.Clock
  simp only []
  generalize (locabs (j.Date.shift (86400 * days))).2 = abs1 at hshift hlt ⊢
  generalize (locabs j.Date).2 = abs0 at habs hclock hshift hsum
  have hdiv : ((abs1 / secondsPerDay : Nat) : Int) = daysBeforeYear Y' + (lo' + (D' - 1)
        + (if isLeap Y' && decide (M' > 2) then 1 else 0)) := by
    simp only [secondsPerDay, secondsPerHour]
    push_cast
    omega
  have hmod : abs1 % secondsPerDay = abs0 % secondsPerDay := by
    simp only [secondsPerDay, secondsPerHour]
    omega
  rw [absDate_of_civil abs1 hlt Y' M' D' lo' dim' hM1 hM12 hD1
      (by rw [daysIn_eq M' Y' lo' hi' hlo hhi' (by omega), hdim']) hD hlo hdiv,
    absClock_congr abs1 abs0 hmod, hclock]
  rfl

theorem daysBeforeYear_add_leap (Y : Int) :
    daysBeforeYear Y + (if isLeap Y then 1 else 0)
      = 365 * Y + (Y / 4 - Y / 100 + Y / 400) + 106751990353567 := by
  have a4 : (Y - absoluteZeroYear) / 4 = (Y - 1) / 4 + 73069255600 := by
    unfold absoluteZeroYear; omega
  have a100 : (Y - absoluteZeroYear) / 100 = (Y - 1) / 100 + 2922770224 := by
    unfold absoluteZeroYear; omega
  have a400 : (Y - absoluteZeroYear) / 400 = (Y - 1) / 400 + 730692556 := by
    unfold absoluteZeroYear; omega
  have b4 : Y / 4 = (Y - 1) / 4 + (if Y % 4 = 0 then 1 else 0) := by split_ifs <;> omega
  have b100 : Y / 100 = (Y - 1) / 100 + (if Y % 100 = 0 then 1 else 0) := by
    split_ifs <;> omega
  have b400 : Y / 400 = (Y - 1) / 400 + (if Y % 400 = 0 then 1 else 0) := by
    split_ifs <;> omega
  have l1 := isLeap_iff Y
  rw [daysBeforeYear, a4, a100, a400, b4, b100, b400]
  unfold absoluteZeroYear
  by_cases h4 : Y % 4 = 0 <;> by_cases h100 : Y % 100 = 0 <;> by_cases h400 : Y % 400 = 0 <;>
    cases hl : isLeap Y <;>
    simp only [h4, h100, h400, hl, if_true, if_false, Bool.false_eq_true, ne_eq, not_true,
      not_false_eq_true, or_true, or_false, and_true, and_false, false_iff, true_iff,
      iff_true, iff_false, true_and, false_and, false_or, true_or] at l1 ⊢ <;>
    omega

theorem civil_valid (j : JodaDate) (Y M D h mi s : Int)
    (hc : j.civil = some (Y, M, D, h, mi, s)) :
    1 ≤ M ∧ M ≤ 12 ∧ 1 ≤ D ∧ ∃ dim lo yd, daysIn M Y = some dim ∧ D ≤ dim ∧
      daysBeforeAt (M - 1) = some lo ∧ j.Date.date = some ⟨Y, M, D, yd⟩ ∧
      absoluteZeroYear ≤ Y ∧ Y ≤ 292277026854 := by
  obtain ⟨yd, hdate, -⟩ := JodaDate.civil_some j Y M D h mi s hc
  obtain ⟨m, d, lo, dim, he, h1, h2, h3, hdim, hle, hlo, -⟩ :=
    absDate_full_spec (locabs j.Date).2 (locabs_lt j.Date)
  obtain ⟨hr1, hr2⟩ := absYearDay_year_range (locabs j.Date).2 (locabs_lt j.Date)
  rw [he] at hdate
  simp only [Option.some.injEq, Civil.mk.injEq] at hdate
  obtain ⟨e1, e2, e3, e4⟩ := hdate
  rw [e1] at hdim hr1 hr2 he
  rw [e2] at h1 h2 hdim hlo he
  rw [e3] at h3 hle he
  exact ⟨h1, h2, h3, dim, lo, _, hdim, hle, hlo, he, hr1, hr2⟩

theorem yearsDays_after_february (t : Time) (Y M D yd n : Int)
    (he : t.date = some ⟨Y, M, D, yd⟩) (hM : 3 ≤ M) (hY : 1 ≤ Y) (hYn : 1 ≤ Y + n)
    (hY2 : Y ≤ 292277026854) (hn1 : -292 ≤ n) (hn2 : n ≤ 292) :
    yearsDays t n = some (civilDayNumber (Y + n) M D - civilDayNumber Y M D) ∧
      -106751 ≤ civilDayNumber (Y + n) M D - civilDayNumber Y M D ∧
      civilDayNumber (Y + n) M D - civilDayNumber Y M D ≤ 106751 := by
  have hw : wrapInt64 (Y + n) = Y + n := wrapInt64_of_range _ (by omega) (by omega)
  have d4 : ∀ a : Int, 0 ≤ a → a.tdiv 4 = a / 4 := fun a ha => Int.tdiv_eq_ediv ha (by decide)
  have d100 : ∀ a : Int, 0 ≤ a → a.tdiv 100 = a / 100 :=
    fun a ha => Int.tdiv_eq_ediv ha (by decide)
  have d400 : ∀ a : Int, 0 ≤ a → a.tdiv 400 = a / 400 :=
    fun a ha => Int.tdiv_eq_ediv ha (by decide)
  have hm1 : (M == 1) = false := by rw [beq_eq_false_iff_ne]; omega
  have hm2 : (M == 2) = false := by rw [beq_eq_false_iff_ne]; omega
  have hgt : decide (M > 2) = true := by rw [decide_eq_true_eq]; omega
  have k1 := daysBeforeYear_add_leap Y
  have k2 := daysBeforeYear_add_leap (Y + n)
  have key : civilDayNumber (Y + n) M D - civilDayNumber Y M D
      = ((Y + n) / 4 - Y / 4) - ((Y + n) / 100 - Y / 100) + ((Y + n) / 400 - Y / 400)
        + 365 * n := by
    simp only [civilDayNumber, hgt, Bool.and_true]
    linarith
  rw [key]
  refine ⟨?_, by omega, by omega⟩
  rcases lt_trichotomy n 0 with hneg | hn0 | hp
  · rw [yearsDays_neg t Y M D yd n he hneg hw, hm1, hm2]
    simp only [Bool.false_and, Bool.or_self, Bool.and_false, Bool.false_eq_true, if_false,
      add_zero, d4 Y (by omega), d100 Y (by omega), d400 Y (by omega), d4 (Y + n) (by omega),
      d100 (Y + n) (by omega), d400 (Y + n) (by omega)]
    have hin : wrapInt64 (Y / 4 - (Y + n) / 4 - (Y / 100 - (Y + n) / 100)
        + (Y / 400 - (Y + n) / 400) + 365 * -n)
        = Y / 4 - (Y + n) / 4 - (Y / 100 - (Y + n) / 100)
          + (Y / 400 - (Y + n) / 400) + 365 * -n :=
      wrapInt64_of_range _ (by omega) (by omega)
    rw [hin, wrapInt64_of_range _ (by omega) (by omega)]
    congr 1
    omega
  · subst hn0
    simp [yearsDays]
  · rw [yearsDays_pos t Y M D yd n he hp hw, hm1, hm2]
    simp only [Bool.false_and, Bool.or_self, Bool.and_false, Bool.false_eq_true, if_false,
      add_zero, d4 Y (by omega), d100 Y (by omega), d400 Y (by omega), d4 (Y + n) (by omega),
      d100 (Y + n) (by omega), d400 (Y + n) (by omega)]
    rw [wrapInt64_of_range _ (by omega) (by omega)]

theorem daysIn_congr_year (M Y Y' : Int) (hM : M ≠ 2) : daysIn M Y = daysIn M Y' := by
  have : (M == 2) = false := by rw [beq_eq_false_iff_ne]; exact hM
  simp only [daysIn, this, Bool.false_and]

set_option maxRecDepth 100000 in
/-- C17, counterexample: in the zone America/Los_Angeles, 2021-03-13 12:00:00 is read with
offset -8h; `AddYear(3)` adds the exact 1096 days of 24 hours, and the result, on a day
with offset -7h, reads 2024-03-13 13:00:00: the time of day has changed. -/
theorem AddYear_across_offset_change :
    DateZone 2021 3 13 12 0 0 0 (some LosAngeles)
      = some ⟨unixTime 1615665600 0 LosAngeles⟩ ∧
    (JodaDate.mk (unixTime 1615665600 0 LosAngeles)).Date.WF ∧
    (JodaDate.mk (unixTime 1615665600 0 LosAngeles)).civil = some (2021, 3, 13, 12, 0, 0) ∧
    yearsDays (unixTime 1615665600 0 LosAngeles) 3 = some 1096 ∧
    civilDayNumber 2024 3 13 - civilDayNumber 2021 3 13 = 1096 ∧
    (unixTime 1615665600 0 LosAngeles).Zone = -28800 ∧
    ((unixTime 1615665600 0 LosAngeles).shift (86400 * 1096)).Zone = -25200 ∧
    ((JodaDate.mk (unixTime 1615665600 0 LosAngeles)).AddYear 3).bind JodaDate.civil
      = some (2024, 3, 13, 13, 0, 0) :=
  ⟨by decide, by decide, by decide, by decide, by decide, by decide, by decide, by decide⟩

/-- C17, amended: for a date in March through December of a year `Y ≥ 1` and a count `n`
with `Y + n ≥ 1` and `|n| ≤ 292`, `yearsDays` is the exact signed number of days to the
same month and day of year `Y + n`; and when `Y + n` is before the last year that an
absolute time can express, the zone has the same offset at the resulting instant (as
every fixed zone has) and the second count of that instant fits an `int64`, `AddYear n`
reads year `Y + n` with month, day and time of day unchanged. The chain of the test from
2021-07-03 reads 2024, 2035, 2270, 2562, 2270, always July 3. -/
theorem AddYear_exact_after_february (j : JodaDate) (hwf : j.Date.WF)
    (Y M D h mi s n : Int) (hc : j.civil = some (Y, M, D, h, mi, s))
    (hM : 3 ≤ M) (hY : 1 ≤ Y) (hYn : 1 ≤ Y + n) (hn1 : -292 ≤ n) (hn2 : n ≤ 292) :
    yearsDays j.Date n = some (civilDayNumber (Y + n) M D - civilDayNumber Y M D) ∧
    (Y + n < 292277026854 →
      (j.Date.shift (86400 * (civilDayNumber (Y + n) M D - civilDayNumber Y M D))).Zone
        = j.Date.Zone →
      FitsSeconds (j.Date.ext
        + 86400 * (civilDayNumber (Y + n) M D - civilDayNumber Y M D)) →
      (j.AddYear n).bind JodaDate.civil = some (Y + n, M, D, h, mi, s)) ∧
    (JodaDate.mk (unixTime 1625270392 0 (FixedZone 8))).civil
      = some (2021, 7, 3, 0, 0, 0) ∧
    ((JodaDate.mk (unixTime 1625270392 0 (FixedZone 8))).AddYear 3).bind JodaDate.civil
      = some (2024, 7, 3, 0, 0, 0) ∧
    (((JodaDate.mk (unixTime 1625270392 0 (FixedZone 8))).AddYear 3).bind
      fun a => a.AddYear 11).bind JodaDate.civil = some (2035, 7, 3, 0, 0, 0) ∧
    ((((JodaDate.mk (unixTime 1625270392 0 (FixedZone 8))).AddYear 3).bind
      fun a => a.AddYear 11).bind fun b => b.AddYear 235).bind JodaDate.civil
      = some (2270, 7, 3, 0, 0, 0) ∧
    (((((JodaDate.mk (unixTime 1625270392 0 (FixedZone 8))).AddYear 3).bind
      fun a => a.AddYear 11).bind fun b => b.AddYear 235).bind
      fun c => c.AddYear 292).bind JodaDate.civil = some (2562, 7, 3, 0, 0, 0) ∧
    ((((((JodaDate.mk (unixTime 1625270392 0 (FixedZone 8))).AddYear 3).bind
      fun a => a.AddYear 11).bind fun b => b.AddYear 235).bind
      fun c => c.AddYear 292).bind fun e => e.AddYear (-292)).bind JodaDate.civil
      = some (2270, 7, 3, 0, 0, 0) := by
  refine ⟨?_, ?_, by decide, by decide, by decide, by decide, by decide, by decide⟩
  · obtain ⟨-, -, -, dim, lo, yd, -, -, -, he, -, hY2⟩ := civil_valid j Y M D h mi s hc
    exact (yearsDays_after_february j.Date Y M D yd n he hM hY hYn hY2 hn1 hn2).1
  · intro hmax hz hrep
    obtain ⟨hM1, hM12, hD1, dim, lo, yd, hdim, hD, hlo, he, -, hY2⟩ :=
      civil_valid j Y M D h mi s hc
    obtain ⟨hdays, hb1, hb2⟩ :=
      yearsDays_after_february j.Date Y M D yd n he hM hY hYn hY2 hn1 hn2
    simp only [JodaDate.AddYear, hdays, Option.bind_eq_bind, Option.some_bind,
      Option.pure_def, Time.Add_days j.Date hwf _ hb1 hb2 hrep]
    refine civil_shift_days j Y M D h mi s hc _ (Y + n) M D lo dim hM1 hM12 hD1 ?_ hD hlo
      (by unfold absoluteZeroYear; omega) hmax (by ring) hz
    rw [← hdim]
    exact daysIn_congr_year M (Y + n) Y (by omega)

theorem AddYear_exact_after_february_witness :
    (JodaDate.mk (unixTime 1625270392 0 (FixedZone 8))).Date.WF ∧
    (JodaDate.mk (unixTime 1625270392 0 (FixedZone 8))).civil
      = some (2021, 7, 3, 0, 0, 0) ∧
    (3 : Int) ≤ 7 ∧ (1 : Int) ≤ 2021 ∧ (1 : Int) ≤ 2021 + (-292) ∧
    (-292 : Int) ≤ -292 ∧ (-292 : Int) ≤ 292 ∧ (2021 : Int) + (-292) < 292277026854 ∧
    ((unixTime 1625270392 0 (FixedZone 8)).shift
      (86400 * (civilDayNumber (2021 + (-292)) 7 3 - civilDayNumber 2021 7 3))).Zone
        = (unixTime 1625270392 0 (FixedZone 8)).Zone ∧
    FitsSeconds ((unixTime 1625270392 0 (FixedZone 8)).ext
      + 86400 * (civilDayNumber (2021 + (-292)) 7 3 - civilDayNumber 2021 7 3)) ∧
    yearsDays (JodaDate.mk (unixTime 1625270392 0 (FixedZone 8))).Date (-292)
      = some (civilDayNumber (2021 + (-292)) 7 3 - civilDayNumber 2021 7 3) ∧
    ((JodaDate.mk (unixTime 1625270392 0 (FixedZone 8))).AddYear (-292)).bind JodaDate.civil
      = some (2021 + (-292), 7, 3, 0, 0, 0) :=
  ⟨by decide, by decide, by decide, by decide, by decide, by decide, by decide, by decide,
    by decide, by decide,
    (AddYear_exact_after_february _ (by decide) 2021 7 3 0 0 0 (-292) (by decide) (by decide)
      (by decide) (by decide) (by decide) (by decide)).1,
    (AddYear_exact_after_february _ (by decide) 2021 7 3 0 0 0 (-292) (by decide) (by decide)
      (by decide) (by decide) (by decide) (by decide)).2.1 (by decide) (by decide)
      (by decide)⟩

theorem daysBeforeAt_range (i v : Int) (h : daysBeforeAt i = some v) : 0 ≤ v ∧ v ≤ 365 := by
  have hi : 0 ≤ i ∧ i ≤ 12 := by
    unfold daysBeforeAt at h
    by_cases h0 : 0 ≤ i
    · rw [if_pos h0] at h
      have := List.get?_eq_some.1 h
      obtain ⟨hlt, -⟩ := this
      have : daysBefore.length = 13 := by decide
      omega
    · rw [if_neg h0] at h; exact absurd h (by simp)
  obtain ⟨k, rfl⟩ : ∃ k : Nat, i = (k : Int) := ⟨i.toNat, by omega⟩
  have hk : k < 13 := by omega
  have ht : ∀ k : Nat, k < 13 →
      (daysBeforeAt (k : Int)).all (fun v => decide (0 ≤ v ∧ v ≤ 365)) = true := by decide
  have := ht k hk
  rw [h] at this
  simpa using this

theorem addMonthDays_same_year (j : JodaDate) (hwf : j.Date.WF) (Y M D h mi s m : Int)
    (hc : j.civil = some (Y, M, D, h, mi, s)) (hm0 : 0 < m) (hMm : M + m ≤ 11) :
    ∃ a b, daysBeforeAt (M + m - 1) = some a ∧ daysBeforeAt (M - 1) = some b ∧
      addMonthDays j m
        = some (a - b + (if isLeap Y = true ∧ M ≤ 2 ∧ 3 ≤ M + m then 1 else 0)) := by
  obtain ⟨hM1, hM12, hD1, dim, lo, yd, hdim, hD, hlo, he, -, -⟩ :=
    civil_valid j Y M D h mi s hc
  obtain ⟨a, ha⟩ := daysBeforeAt_some (M + m - 1) (by omega) (by omega)
  obtain ⟨ra0, ra1⟩ := daysBeforeAt_range _ _ ha
  obtain ⟨rb0, rb1⟩ := daysBeforeAt_range _ _ hlo
  refine ⟨a, lo, ha, hlo, ?_⟩
  have e1 : m.tdiv 12 = 0 := by
    rw [Int.tdiv_eq_ediv (by omega) (by decide)]; omega
  have e2 : m.tmod 12 = m := Int.tmod_eq_of_lt (by omega) (by omega)
  have e3 : (M + m).tmod 12 = M + m := Int.tmod_eq_of_lt (by omega) (by omega)
  have hyears : yearsDays j.Date 0 = some 0 := by simp [yearsDays]
  have hdt1 : j.Date.Add (wrapInt64 (wrapInt64 (24 * 0) * Hour)) = j.Date :=
    Time.Add_zero_days j.Date hwf
  have hlt : M < M + m := by omega
  have w1 : wrapInt32 (a - lo) = a - lo := wrapInt32_of_range _ (by omega) (by omega)
  have w2 : wrapInt64 (0 + (a - lo)) = a - lo := by
    rw [zero_add]; exact wrapInt64_of_range _ (by omega) (by omega)
  -- a February date has at most 29 days
  have hD29 : M = 2 → D ≤ 29 := by
    intro h2
    obtain ⟨hi, hhi⟩ := daysBeforeAt_some M (by omega) hM12
    obtain ⟨-, -, -, -, -, -, -, t6⟩ := absMonthDay_inverse M D lo hi hM1 hM12 hlo hhi hD1
    have := t6 h2
    rw [daysIn_eq M Y lo hi hlo hhi (by omega)] at hdim
    have := Option.some.inj hdim
    split_ifs at this <;> omega
  have hleap : (isLeap Y && isLeap Y && decide (M + m > 2)
        && (decide (M < 2) || (M == 2 && decide (D ≤ 29))))
      = decide (isLeap Y = true ∧ M ≤ 2 ∧ 3 ≤ M + m) := by
    cases hl : isLeap Y
    · simp
    · by_cases h3 : M + m > 2
      · by_cases h1 : M < 2
        · have : M ≤ 2 ∧ 3 ≤ M + m := ⟨by omega, by omega⟩
          simp [h3, h1, this]
        · by_cases h2 : M = 2
          · have := hD29 h2
            have h5 : 3 ≤ 2 + m := by omega
            simp [h2, this, h5, hm0]
          · have hn : ¬ M ≤ 2 := by omega
            simp [h3, h1, h2, hn]
      · have hn : ¬ 3 ≤ M + m := by omega
        simp [h3, hn]
  unfold addMonthDays
  rw [e1, hyears]
  simp only [Option.bind_eq_bind, Option.some_bind, hdt1, Time.Month, Time.Year, Time.Day,
    he, Option.map_some', e2, e3, hlt, if_true, ha, hlo, w1, w2, hleap, Option.pure_def,
    decide_eq_true_eq]
  congr 1
  split_ifs <;> exact wrapInt64_of_range _ (by omega) (by omega)

set_option maxRecDepth 100000 in
/-- C18, counterexample: in the zone America/Los_Angeles, 2024-02-28 06:00:00 is read
with offset -8h; `AddMonth(3)` adds the exact 90 days of 24 hours, and the result, on a
day with offset -7h, reads 2024-05-28 07:00:00: the time of day has changed. -/
theorem AddMonth_across_offset_change :
    DateZone 2024 2 28 6 0 0 0 (some LosAngeles)
      = some ⟨unixTime 1709128800 0 LosAngeles⟩ ∧
    (JodaDate.mk (unixTime 1709128800 0 LosAngeles)).Date.WF ∧
    (JodaDate.mk (unixTime 1709128800 0 LosAngeles)).civil = some (2024, 2, 28, 6, 0, 0) ∧
    addMonthDays ⟨unixTime 1709128800 0 LosAngeles⟩ 3 = some 90 ∧
    civilDayNumber 2024 5 28 - civilDayNumber 2024 2 28 = 90 ∧
    daysIn 5 2024 = some 31 ∧
    (unixTime 1709128800 0 LosAngeles).Zone = -28800 ∧
    ((unixTime 1709128800 0 LosAngeles).shift (86400 * 90)).Zone = -25200 ∧
    ((JodaDate.mk (unixTime 1709128800 0 LosAngeles)).AddMonth 3).bind JodaDate.civil
      = some (2024, 5, 28, 7, 0, 0) :=
  ⟨by decide, by decide, by decide, by decide, by decide, by decide, by decide, by decide,
    by decide⟩

/-- C18, amended: for a date `(Y, M, D)` and `0 < m < 12` with `M + m ≤ 11`, the days
added by `AddMonth m` are `daysBefore[M+m-1] - daysBefore[M-1]`, plus 1 exactly when
`isLeap Y`, `M ≤ 2` and `M + m ≥ 3`; this is the number of days from `(Y, M, D)` to
`(Y, M+m, D)`. Whenever `D ≤ daysIn(M+m, Y)`, `Y` is before the last year that an absolute
time can express, the zone has the same offset at the resulting instant (as every fixed
zone has) and the second count of that instant fits an `int64`, the result reads
`(Y, M+m, D)` at the same time of day. -/
theorem AddMonth_same_year_forward (j : JodaDate) (hwf : j.Date.WF)
    (Y M D h mi s m : Int) (hc : j.civil = some (Y, M, D, h, mi, s))
    (hm0 : 0 < m) (hm12 : m < 12) (hMm : M + m ≤ 11) :
    ∃ a b : Int, daysBeforeAt (M + m - 1) = some a ∧ daysBeforeAt (M - 1) = some b ∧
      addMonthDays j m
        = some (a - b + (if isLeap Y = true ∧ M ≤ 2 ∧ 3 ≤ M + m then 1 else 0)) ∧
      a - b + (if isLeap Y = true ∧ M ≤ 2 ∧ 3 ≤ M + m then 1 else 0)
        = civilDayNumber Y (M + m) D - civilDayNumber Y M D ∧
      ∀ dim : Int, daysIn (M + m) Y = some dim → D ≤ dim → Y < 292277026854 →
        (j.Date.shift (86400 * (civilDayNumber Y (M + m) D - civilDayNumber Y M D))).Zone
          = j.Date.Zone →
        FitsSeconds (j.Date.ext
          + 86400 * (civilDayNumber Y (M + m) D - civilDayNumber Y M D)) →
        (j.AddMonth m).bind JodaDate.civil = some (Y, M + m, D, h, mi, s) := by
  obtain ⟨a, b, ha, hb, hdays⟩ := addMonthDays_same_year j hwf Y M D h mi s m hc hm0 hMm
  obtain ⟨hM1, hM12, hD1, -, -, -, -, -, -, -, hY0, -⟩ := civil_valid j Y M D h mi s hc
  obtain ⟨ra0, ra1⟩ := daysBeforeAt_range _ _ ha
  obtain ⟨rb0, rb1⟩ := daysBeforeAt_range _ _ hb
  have hnum : a - b + (if isLeap Y = true ∧ M ≤ 2 ∧ 3 ≤ M + m then 1 else 0)
      = civilDayNumber Y (M + m) D - civilDayNumber Y M D := by
    simp only [civilDayNumber, ha, hb, Option.getD_some]
    cases hl : isLeap Y
    · simp
    · by_cases h1 : M > 2
      · have h2 : M + m > 2 := by omega
        have h3 : ¬ M ≤ 2 := by omega
        simp [h1, h2, h3]
      · by_cases h2 : M + m > 2
        · have h3 : M ≤ 2 ∧ 3 ≤ M + m := ⟨by omega, by omega⟩
          simp [h1, h2, h3]; ring
        · have h3 : ¬ 3 ≤ M + m := by omega
          simp [h1, h2, h3]
  refine ⟨a, b, ha, hb, hdays, hnum, ?_⟩
  intro dim hdim hD hmax hz hrep
  rw [← hnum] at hz hrep
  have hr : -106751 ≤ a - b + (if isLeap Y = true ∧ M ≤ 2 ∧ 3 ≤ M + m then 1 else 0) ∧
      a - b + (if isLeap Y = true ∧ M ≤ 2 ∧ 3 ≤ M + m then 1 else 0) ≤ 106751 := by
    split_ifs <;> omega
  simp only [JodaDate.AddMonth, hdays, Option.bind_eq_bind, Option.some_bind,
    Option.pure_def, Time.Add_days j.Date hwf _ hr.1 hr.2 hrep]
  exact civil_shift_days j Y M D h mi s hc _ Y (M + m) D a dim (by omega) (by omega) hD1
    hdim hD ha hY0 hmax (by rw [hnum]; ring) hz

theorem AddMonth_same_year_forward_witness :
    (JodaDate.mk (unixTime 1709099992 0 (FixedZone 8))).Date.WF ∧
    (JodaDate.mk (unixTime 1709099992 0 (FixedZone 8))).civil
      = some (2024, 2, 28, 6, 0, 0) ∧
    (0 : Int) < 3 ∧ (3 : Int) < 12 ∧ (2 : Int) + 3 ≤ 11 ∧
    daysIn (2 + 3) 2024 = some 31 ∧ (28 : Int) ≤ 31 ∧ (2024 : Int) < 292277026854 ∧
    ((unixTime 1709099992 0 (FixedZone 8)).shift
      (86400 * (civilDayNumber 2024 (2 + 3) 28 - civilDayNumber 2024 2 28))).Zone
        = (unixTime 1709099992 0 (FixedZone 8)).Zone ∧
    FitsSeconds ((unixTime 1709099992 0 (FixedZone 8)).ext
      + 86400 * (civilDayNumber 2024 (2 + 3) 28 - civilDayNumber 2024 2 28)) ∧
    ((JodaDate.mk (unixTime 1709099992 0 (FixedZone 8))).AddMonth 3).bind JodaDate.civil
      = some (2024, 2 + 3, 28, 6, 0, 0) :=
  ⟨by decide, by decide, by decide, by decide, by decide, by decide, by decide, by decide,
    by decide, by decide,
    (AddMonth_same_year_forward _ (by decide) 2024 2 28 6 0 0 3 (by decide) (by decide)
      (by decide) (by decide)).elim fun _ ha => ha.elim fun _ hb =>
        hb.2.2.2.2 31 (by decide) (by decide) (by decide) (by decide) (by decide)⟩

theorem yearsDays_bound (t : Time) (Y M D yd n : Int)
    (he : t.date = some ⟨Y, M, D, yd⟩) (hY : 1 ≤ Y) (hYn : 1 ≤ Y + n)
    (hY2 : Y ≤ 292277026854) (hn1 : -292 ≤ n) (hn2 : n ≤ 292) :
    ∃ days, yearsDays t n = some days ∧ -106751 ≤ days ∧ days ≤ 106751 := by
  have hw : wrapInt64 (Y + n) = Y + n := wrapInt64_of_range _ (by omega) (by omega)
  have d4 : ∀ a : Int, 0 ≤ a → a.tdiv 4 = a / 4 := fun a ha => Int.tdiv_eq_ediv ha (by decide)
  have d100 : ∀ a : Int, 0 ≤ a → a.tdiv 100 = a / 100 :=
    fun a ha => Int.tdiv_eq_ediv ha (by decide)
  have d400 : ∀ a : Int, 0 ≤ a → a.tdiv 400 = a / 400 :=
    fun a ha => Int.tdiv_eq_ediv ha (by decide)
  have flag : ∀ c : Bool, ∃ L : Int, (L = 0 ∨ L = 1) ∧ (if c = true then (1 : Int) else 0) = L := by
    intro c; cases c
    · exact ⟨0, Or.inl rfl, rfl⟩
    · exact ⟨1, Or.inr rfl, rfl⟩
  rcases lt_trichotomy n 0 with hneg | hn0 | hp
  · refine ⟨_, yearsDays_neg t Y M D yd n he hneg hw, ?_⟩
    obtain ⟨L, hL, hLe⟩ :=
      flag (isLeap (Y + n) && !isLeap Y && (M == 1 || (M == 2 && decide (D < 29))))
    simp only [d4 Y (by omega), d100 Y (by omega), d400 Y (by omega), d4 (Y + n) (by omega),
      d100 (Y + n) (by omega), d400 (Y + n) (by omega), hLe]
    have hin : wrapInt64 (Y / 4 - (Y + n) / 4 - (Y / 100 - (Y + n) / 100)
        + (Y / 400 - (Y + n) / 400) + L + 365 * -n)
        = Y / 4 - (Y + n) / 4 - (Y / 100 - (Y + n) / 100)
          + (Y / 400 - (Y + n) / 400) + L + 365 * -n :=
      wrapInt64_of_range _ (by omega) (by omega)
    rw [hin, wrapInt64_of_range _ (by omega) (by omega)]
    omega
  · subst hn0
    exact ⟨0, by simp [yearsDays], by decide, by decide⟩
  · refine ⟨_, yearsDays_pos t Y M D yd n he hp hw, ?_⟩
    obtain ⟨L, hL, hLe⟩ :=
      flag (isLeap Y && !isLeap (Y + n) && (M == 1 || (M == 2 && decide (D < 29))))
    simp only [d4 Y (by omega), d100 Y (by omega), d400 Y (by omega), d4 (Y + n) (by omega),
      d100 (Y + n) (by omega), d400 (Y + n) (by omega), hLe]
    rw [wrapInt64_of_range _ (by omega) (by omega)]
    omega

theorem ext_of_civil (j : JodaDate) (hwf : j.Date.WF) (Y M D h mi s : Int)
    (hc : j.civil = some (Y, M, D, h, mi, s)) (hY1 : 1 ≤ Y) (hY2 : Y ≤ 2563)
    (hz1 : -2 ^ 62 ≤ j.Date.Zone) (hz2 : j.Date.Zone ≤ 2 ^ 62) :
    -2 ^ 62 ≤ j.Date.ext ∧ j.Date.ext ≤ 2 ^ 62 + 2 ^ 40 := by
  obtain ⟨yd, hdate, -⟩ := JodaDate.civil_some j Y M D h mi s hc
  obtain ⟨lo, -, hyd0, hyd1, -, hdays⟩ :=
    absDate_full_days _ (locabs_lt j.Date) Y M D yd hdate
  have b1 := daysBeforeYear_mono 1 Y hY1
  have b2 := daysBeforeYear_mono Y 2563 hY2
  have v1 : daysBeforeYear 1 = 106751990353932 := by decide
  have v2 : daysBeforeYear 2563 = 106751991289683 := by decide
  have hlen : yearLength Y ≤ 366 := by unfold yearLength; split_ifs <;> decide
  have he := locabs_eq j.Date
  have hlt := locabs_lt j.Date
  obtain ⟨-, -, e0, e1⟩ := hwf
  have hdm := Nat.div_add_mod (locabs j.Date).2 secondsPerDay
  have hml : (locabs j.Date).2 % secondsPerDay < 86400 := Nat.mod_lt _ (by decide)
  simp only [secondsPerDay, secondsPerHour] at hdays hdm hml
  generalize j.Date.Zone = z at hz1 hz2 he
  generalize (locabs j.Date).2 = abs at hdays hdm hml he hlt
  have f1 : (9223371966579724800 : Int) ≤ abs := by omega
  have f2 : (abs : Int) ≤ 9223371966579724800 + 2 ^ 40 - 1 := by omega
  clear hdays hdm hml b1 b2 v1 v2 hlen hyd0 hyd1
  omega

set_option maxRecDepth 100000 in
/-- C19, counterexample: a fixed zone whose offset is about `-2^63` seconds. The instant
100 seconds before the last one that a `time.Time` can hold reads 2021-07-03 00:00:00 in
that zone; for `n = 1` (years 2021 and 2022) `yearsDays` is 365 and its duration fits,
but `Time.Add` saturates: `AddYear(1)` moves the instant by 100 seconds, not by 365 days,
and reads 2021-07-03 00:01:40. -/
theorem AddYear_saturates :
    (unixTime 9223371974719178907 0 (FixedZone (-9223371973093908507))).WF ∧
    (JodaDate.mk (unixTime 9223371974719178907 0 (FixedZone (-9223371973093908507)))).civil
      = some (2021, 7, 3, 0, 0, 0) ∧
    yearsDays (unixTime 9223371974719178907 0 (FixedZone (-9223371973093908507))) 1
      = some 365 ∧
    (24 : Int) * 365 * 3600 * 1000000000 < 2 ^ 63 ∧
    (JodaDate.mk (unixTime 9223371974719178907 0 (FixedZone (-9223371973093908507)))).AddYear
      1 = some ⟨(unixTime 9223371974719178907 0 (FixedZone (-9223371973093908507))).shift
        100⟩ ∧
    (100 : Int) ≠ 86400 * 365 ∧
    ((JodaDate.mk (unixTime 9223371974719178907 0
      (FixedZone (-9223371973093908507)))).AddYear 1).bind JodaDate.civil
      = some (2021, 7, 3, 0, 1, 40) :=
  ⟨by decide, by decide, by decide, by decide, by decide, by decide, by decide⟩

/-- C19, amended: for a date of year `Y`, in a zone whose offset at that date is at most
`2^62` seconds in magnitude, and a count `n` with `Y` and `Y + n` in `1..2563` and
`|n| ≤ 292`, the duration `24 * yearsDays` hours in nanoseconds fits a signed 64-bit
integer, so `AddYear n` moves the instant by exactly `yearsDays` days; for `n = 293` from
2021-07-03 the same product exceeds the signed 64-bit range. -/
theorem AddYear_duration_fits (j : JodaDate) (hwf : j.Date.WF) (Y M D h mi s n : Int)
    (hc : j.civil = some (Y, M, D, h, mi, s)) (hY1 : 1 ≤ Y) (hY2 : Y ≤ 2563)
    (hYn1 : 1 ≤ Y + n) (_hYn2 : Y + n ≤ 2563) (hn1 : -292 ≤ n) (hn2 : n ≤ 292)
    (hz1 : -2 ^ 62 ≤ j.Date.Zone) (hz2 : j.Date.Zone ≤ 2 ^ 62) :
    (∃ days : Int, yearsDays j.Date n = some days ∧
      -2 ^ 63 ≤ 24 * days * 3600 * 1000000000 ∧ 24 * days * 3600 * 1000000000 < 2 ^ 63 ∧
      wrapInt64 (wrapInt64 (24 * days) * Hour) = 24 * days * 3600 * 1000000000 ∧
      j.AddYear n = some ⟨j.Date.shift (86400 * days)⟩) ∧
    (JodaDate.mk (unixTime 1625270392 0 (FixedZone 8))).civil
      = some (2021, 7, 3, 0, 0, 0) ∧
    yearsDays (unixTime 1625270392 0 (FixedZone 8)) 293 = some 107015 ∧
    (2 : Int) ^ 63 ≤ 24 * 107015 * 3600 * 1000000000 := by
  refine ⟨?_, by decide, by decide, by decide⟩
  obtain ⟨-, -, -, -, -, yd, -, -, -, he, -, -⟩ := civil_valid j Y M D h mi s hc
  obtain ⟨days, hdays, hb1, hb2⟩ :=
    yearsDays_bound j.Date Y M D yd n he hY1 hYn1 (by omega) hn1 hn2
  obtain ⟨x1, x2⟩ := ext_of_civil j hwf Y M D h mi s hc hY1 hY2 hz1 hz2
  refine ⟨days, hdays, by omega, by omega, ?_, ?_⟩
  · rw [wrapInt64_of_range (24 * days) (by omega) (by omega),
      wrapInt64_of_range _ (by simp only [Hour, Minute, Second, Nanosecond]; omega)
        (by simp only [Hour, Minute, Second, Nanosecond]; omega)]
    simp only [Hour, Minute, Second, Nanosecond]; ring
  · simp only [JodaDate.AddYear, hdays, Option.bind_eq_bind, Option.some_bind,
      Option.pure_def, Time.Add_days j.Date hwf _ hb1 hb2 ⟨by omega, by omega⟩]

theorem AddYear_duration_fits_witness :
    (JodaDate.mk (unixTime 1625270392 0 (FixedZone 8))).Date.WF ∧
    (JodaDate.mk (unixTime 1625270392 0 (FixedZone 8))).civil
      = some (2021, 7, 3, 0, 0, 0) ∧
    (1 : Int) ≤ 2021 ∧ (2021 : Int) ≤ 2563 ∧ (1 : Int) ≤ 2021 + 292 ∧
    (2021 : Int) + 292 ≤ 2563 ∧ (-292 : Int) ≤ 292 ∧ (292 : Int) ≤ 292 ∧
    -2 ^ 62 ≤ (unixTime 1625270392 0 (FixedZone 8)).Zone ∧
    (unixTime 1625270392 0 (FixedZone 8)).Zone ≤ 2 ^ 62 ∧
    ((∃ days : Int,
        yearsDays (JodaDate.mk (unixTime 1625270392 0 (FixedZone 8))).Date 292 = some days ∧
      -2 ^ 63 ≤ 24 * days * 3600 * 1000000000 ∧ 24 * days * 3600 * 1000000000 < 2 ^ 63 ∧
      wrapInt64 (wrapInt64 (24 * days) * Hour) = 24 * days * 3600 * 1000000000 ∧
      (JodaDate.mk (unixTime 1625270392 0 (FixedZone 8))).AddYear 292
        = some ⟨(JodaDate.mk (unixTime 1625270392 0 (FixedZone 8))).Date.shift
            (86400 * days)⟩) ∧
    (JodaDate.mk (unixTime 1625270392 0 (FixedZone 8))).civil
      = some (2021, 7, 3, 0, 0, 0) ∧
    yearsDays (unixTime 1625270392 0 (FixedZone 8)) 293 = some 107015 ∧
    (2 : Int) ^ 63 ≤ 24 * 107015 * 3600 * 1000000000) :=
  ⟨by decide, by decide, by decide, by decide, by decide, by decide, by decide, by decide,
    by decide, by decide,
    AddYear_duration_fits _ (by decide) 2021 7 3 0 0 0 292 (by decide) (by decide) (by decide)
      (by decide) (by decide) (by decide) (by decide) (by decide) (by decide)⟩

theorem Time.Add_loc (t : Time) (d : Duration) : (t.Add d).loc = t.loc := by
  simp only [Time.Add, Time.addSec]
  split_ifs <;> rfl

theorem Time.Add_seconds_nsec (t : Time) (hwf : t.WF) (k : Int) :
    (t.Add (k * 1000000000)).nsec = t.nsec := by
  obtain ⟨h0, h1, -, -⟩ := hwf
  have e2 : (k * 1000000000).tmod 1000000000 = 0 := Int.mul_tmod_left k 1000000000
  have n1 : ¬ t.nsec ≥ 1000000000 := by omega
  have n2 : ¬ t.nsec < 0 := by omega
  simp only [Time.Add, Time.addSec, e2, add_zero, n1, n2, if_false]
  split_ifs <;> rfl

theorem Time.Add_days_nsec (t : Time) (hwf : t.WF) (days : Int)
    (h0 : -106751 ≤ days) (h1 : days ≤ 106751) :
    (t.Add (wrapInt64 (wrapInt64 (24 * days) * Hour))).nsec = t.nsec := by
  have e : wrapInt64 (wrapInt64 (24 * days) * Hour) = (86400 * days) * 1000000000 := by
    rw [wrapInt64_of_range (24 * days) (by omega) (by omega),
      wrapInt64_of_range _ (by simp only [Hour, Minute, Second, Nanosecond]; omega)
        (by simp only [Hour, Minute, Second, Nanosecond]; omega)]
    simp only [Hour, Minute, Second, Nanosecond]; ring
  rw [e]
  exact Time.Add_seconds_nsec t hwf _

theorem FixedAdd.apply_nsec (j : JodaDate) (hwf : j.Date.WF) (op : FixedAdd)
    (hfit : FitsDuration op.seconds) : (op.apply j).Date.nsec = j.Date.nsec := by
  obtain ⟨f1, f2⟩ := hfit
  cases op with
  | day n =>
    simp only [FixedAdd.seconds] at f1 f2
    have e : wrapInt64 (wrapInt64 (n * 24) * Hour) = (86400 * n) * 1000000000 := by
      rw [wrapInt64_of_range (n * 24) (by omega) (by omega),
        wrapInt64_of_range _ (by simp only [Hour, Minute, Second, Nanosecond]; omega)
          (by simp only [Hour, Minute, Second, Nanosecond]; omega)]
      simp only [Hour, Minute, Second, Nanosecond]; ring
    simp only [FixedAdd.apply, JodaDate.AddDay, e]
    exact Time.Add_seconds_nsec _ hwf _
  | hour n =>
    simp only [FixedAdd.seconds] at f1 f2
    have e : wrapInt64 (n * Hour) = (3600 * n) * 1000000000 := by
      rw [wrapInt64_of_range _ (by simp only [Hour, Minute, Second, Nanosecond]; omega)
          (by simp only [Hour, Minute, Second, Nanosecond]; omega)]
      simp only [Hour, Minute, Second, Nanosecond]; ring
    simp only [FixedAdd.apply, JodaDate.AddHour, e]
    exact Time.Add_seconds_nsec _ hwf _
  | minute n =>
    simp only [FixedAdd.seconds] at f1 f2
    have e : wrapInt64 (n * Minute) = (60 * n) * 1000000000 := by
      rw [wrapInt64_of_range _ (by simp only [Minute, Second, Nanosecond]; omega)
          (by simp only [Minute, Second, Nanosecond]; omega)]
      simp only [Minute, Second, Nanosecond]; ring
    simp only [FixedAdd.apply, JodaDate.AddMinute, e]
    exact Time.Add_seconds_nsec _ hwf _
  | second n =>
    simp only [FixedAdd.seconds] at f1 f2
    have e : wrapInt64 (n * Second) = n * 1000000000 := by
      rw [wrapInt64_of_range _ (by simp only [Second, Nanosecond]; omega)
          (by simp only [Second, Nanosecond]; omega)]
      simp only [Second, Nanosecond]; ring
    simp only [FixedAdd.apply, JodaDate.AddSecond, e]
    exact Time.Add_seconds_nsec _ hwf _
  | week n =>
    simp only [FixedAdd.seconds] at f1 f2
    have e : wrapInt64 (wrapInt64 (wrapInt64 (n * 7) * 24) * Hour)
        = (604800 * n) * 1000000000 := by
      rw [wrapInt64_of_range (n * 7) (by omega) (by omega),
        wrapInt64_of_range (n * 7 * 24) (by omega) (by omega),
        wrapInt64_of_range _ (by simp only [Hour, Minute, Second, Nanosecond]; omega)
          (by simp only [Hour, Minute, Second, Nanosecond]; omega)]
      simp only [Hour, Minute, Second, Nanosecond]; ring
    simp only [FixedAdd.apply, JodaDate.AddWeek, e]
    exact Time.Add_seconds_nsec _ hwf _

theorem addMonthDays_some (j : JodaDate) (n : Int) (hn : 0 ≤ n) :
    ∃ d, addMonthDays j n = some d := by
  obtain ⟨y, hy, -⟩ := yearsDays_some j.Date (n.tdiv 12)
  obtain ⟨c, hc, hm1, hm12⟩ := Time.date_spec j.Date
  obtain ⟨c1, hc1, -⟩ := Time.date_spec (j.Date.Add (wrapInt64 (wrapInt64 (24 * y) * Hour)))
  have r0 : 0 ≤ n.tmod 12 := Int.tmod_nonneg _ hn
  have s0 : 0 ≤ (c.month + n.tmod 12).tmod 12 := Int.tmod_nonneg _ (by omega)
  have s1 : (c.month + n.tmod 12).tmod 12 < 12 := Int.tmod_lt_of_pos _ (by decide)
  simp only [addMonthDays, hy, Time.Month, Time.Year, Time.Day, hc, hc1,
    Option.bind_eq_bind, Option.some_bind, Option.map_some', Option.pure_def]
  generalize (c.month + n.tmod 12).tmod 12 = m2 at s0 s1 ⊢
  by_cases h1 : c.month < m2
  · obtain ⟨a, ha⟩ := daysBeforeAt_some (m2 - 1) (by omega) (by omega)
    obtain ⟨b, hb⟩ := daysBeforeAt_some (c.month - 1) (by omega) (by omega)
    simp only [h1, if_true, ha, hb, Option.some_bind]
    exact ⟨_, rfl⟩
  · by_cases h2 : c.month > m2
    · obtain ⟨a, ha⟩ := daysBeforeAt_some 12 (by decide) (by decide)
      obtain ⟨b, hb⟩ := daysBeforeAt_some c.month (by omega) (by omega)
      obtain ⟨e, he⟩ := daysBeforeAt_some m2 (by omega) (by omega)
      simp only [h1, h2, if_true, if_false, ha, hb, he, Option.some_bind]
      exact ⟨_, rfl⟩
    · simp only [h1, h2, if_false]
      exact ⟨_, rfl⟩

/-- C15, counterexample: `AddHour(2562048)` overflows the 64-bit duration; applied to the
Unix epoch in UTC (nanosecond component 0) it returns a nanosecond component of
290448384. -/
theorem AddHour_overflow_changes_nanoseconds :
    (JodaDate.mk (unixTime 0 0 UTC)).Date.nsec = 0 ∧
    ((JodaDate.mk (unixTime 0 0 UTC)).AddHour 2562048).Date.nsec = 290448384 ∧
    ((JodaDate.mk (unixTime 0 0 UTC)).AddHour 2562048).Date.nsec
      ≠ (JodaDate.mk (unixTime 0 0 UTC)).Date.nsec :=
  ⟨by decide, by decide, by decide⟩

/-- C15, amended: for a date with well-formed fields, `AddDay`, `AddHour`, `AddMinute`,
`AddSecond`, `AddWeek` and `AddYear` return a result in the same zone for every count;
`AddMonth` returns a result for every count `n ≥ 0`, and whenever it returns one the
result is in the same zone. Whenever the duration does not overflow (the count times its
unit fits 64-bit nanoseconds, or the day count of `AddYear`/`AddMonth` is at most 106751
in magnitude) the nanosecond component is unchanged, and the instant moves by exactly
the duration when the second count of the result fits an `int64`. -/
theorem additions_pass_through (j : JodaDate) (hwf : j.Date.WF) (n : Int) :
    ((j.AddDay n).Date.loc = j.Date.loc ∧ (j.AddHour n).Date.loc = j.Date.loc ∧
      (j.AddMinute n).Date.loc = j.Date.loc ∧
      (j.AddSecond n).Date.loc = j.Date.loc ∧
      (j.AddWeek n).Date.loc = j.Date.loc ∧
      (∃ r, j.AddYear n = some r ∧ r.Date.loc = j.Date.loc) ∧
      (0 ≤ n → ∃ r, j.AddMonth n = some r) ∧
      (∀ r, j.AddMonth n = some r → r.Date.loc = j.Date.loc)) ∧
    (FitsDuration (86400 * n) → (j.AddDay n).Date.nsec = j.Date.nsec ∧
      (FitsSeconds (j.Date.ext + 86400 * n) →
        (j.AddDay n).Date = j.Date.shift (86400 * n))) ∧
    (FitsDuration (3600 * n) → (j.AddHour n).Date.nsec = j.Date.nsec ∧
      (FitsSeconds (j.Date.ext + 3600 * n) →
        (j.AddHour n).Date = j.Date.shift (3600 * n))) ∧
    (FitsDuration (60 * n) → (j.AddMinute n).Date.nsec = j.Date.nsec ∧
      (FitsSeconds (j.Date.ext + 60 * n) →
        (j.AddMinute n).Date = j.Date.shift (60 * n))) ∧
    (FitsDuration n → (j.AddSecond n).Date.nsec = j.Date.nsec ∧
      (FitsSeconds (j.Date.ext + n) → (j.AddSecond n).Date = j.Date.shift n)) ∧
    (FitsDuration (604800 * n) → (j.AddWeek n).Date.nsec = j.Date.nsec ∧
      (FitsSeconds (j.Date.ext + 604800 * n) →
        (j.AddWeek n).Date = j.Date.shift (604800 * n))) ∧
    (∀ days, yearsDays j.Date n = some days → -106751 ≤ days → days ≤ 106751 →
      ∃ r, j.AddYear n = some r ∧ r.Date.nsec = j.Date.nsec ∧
        (FitsSeconds (j.Date.ext + 86400 * days) →
          r.Date = j.Date.shift (86400 * days))) ∧
    (∀ days, addMonthDays j n = some days → -106751 ≤ days → days ≤ 106751 →
      ∃ r, j.AddMonth n = some r ∧ r.Date.nsec = j.Date.nsec ∧
        (FitsSeconds (j.Date.ext + 86400 * days) →
          r.Date = j.Date.shift (86400 * days))) := by
  refine ⟨⟨Time.Add_loc _ _, Time.Add_loc _ _, Time.Add_loc _ _, Time.Add_loc _ _,
    Time.Add_loc _ _, ?_, ?_, ?_⟩, ?_, ?_, ?_, ?_, ?_, ?_, ?_⟩
  · obtain ⟨d, hd, -⟩ := yearsDays_some j.Date n
    exact ⟨⟨j.Date.Add (wrapInt64 (wrapInt64 (24 * d) * Hour))⟩,
      by simp only [JodaDate.AddYear, hd, Option.bind_eq_bind, Option.some_bind,
        Option.pure_def], Time.Add_loc _ _⟩
  · intro hn
    obtain ⟨d, hd⟩ := addMonthDays_some j n hn
    exact ⟨⟨j.Date.Add (wrapInt64 (wrapInt64 (24 * d) * Hour))⟩,
      by simp only [JodaDate.AddMonth, hd, Option.bind_eq_bind, Option.some_bind,
        Option.pure_def]⟩
  · intro r hr
    unfold JodaDate.AddMonth at hr
    cases hd : addMonthDays j n with
    | none => rw [hd] at hr; simp at hr
    | some days =>
      rw [hd] at hr
      simp only [Option.bind_eq_bind, Option.some_bind, Option.pure_def,
        Option.some.injEq] at hr
      rw [← hr]; exact Time.Add_loc _ _
  · exact fun hf => ⟨FixedAdd.apply_nsec j hwf (.day n) hf,
      fun hr => FixedAdd.apply_eq j hwf (.day n) hf hr⟩
  · exact fun hf => ⟨FixedAdd.apply_nsec j hwf (.hour n) hf,
      fun hr => FixedAdd.apply_eq j hwf (.hour n) hf hr⟩
  · exact fun hf => ⟨FixedAdd.apply_nsec j hwf (.minute n) hf,
      fun hr => FixedAdd.apply_eq j hwf (.minute n) hf hr⟩
  · exact fun hf => ⟨FixedAdd.apply_nsec j hwf (.second n) hf,
      fun hr => FixedAdd.apply_eq j hwf (.second n) hf hr⟩
  · exact fun hf => ⟨FixedAdd.apply_nsec j hwf (.week n) hf,
      fun hr => FixedAdd.apply_eq j hwf (.week n) hf hr⟩
  · intro days hd h1 h2
    refine ⟨⟨j.Date.Add (wrapInt64 (wrapInt64 (24 * days) * Hour))⟩,
      by simp only [JodaDate.AddYear, hd, Option.bind_eq_bind, Option.some_bind,
        Option.pure_def], Time.Add_days_nsec j.Date hwf days h1 h2, fun hr => ?_⟩
    exact Time.Add_days j.Date hwf days h1 h2 hr
  · intro days hd h1 h2
    refine ⟨⟨j.Date.Add (wrapInt64 (wrapInt64 (24 * days) * Hour))⟩,
      by simp only [JodaDate.AddMonth, hd, Option.bind_eq_bind, Option.some_bind,
        Option.pure_def], Time.Add_days_nsec j.Date hwf days h1 h2, fun hr => ?_⟩
    exact Time.Add_days j.Date hwf days h1 h2 hr

theorem additions_pass_through_witness :
    (JodaDate.mk (unixTime 983433600 0 (FixedZone (-28800)))).Date.WF ∧
    FitsDuration (86400 * 3) ∧
    FitsSeconds ((unixTime 983433600 0 (FixedZone (-28800))).ext + 86400 * 3) ∧
    (0 : Int) ≤ 3 ∧
    ((JodaDate.mk (unixTime 983433600 0 (FixedZone (-28800)))).AddDay 3).Date.loc
      = FixedZone (-28800) ∧
    (∃ r, (JodaDate.mk (unixTime 983433600 0 (FixedZone (-28800)))).AddMonth 3 = some r) ∧
    ((JodaDate.mk (unixTime 983433600 0 (FixedZone (-28800)))).AddDay 3).Date.nsec = 0 ∧
    ((JodaDate.mk (unixTime 983433600 0 (FixedZone (-28800)))).AddDay 3).Date
      = (JodaDate.mk (unixTime 983433600 0 (FixedZone (-28800)))).Date.shift (86400 * 3) :=
  ⟨by decide, by decide, by decide, by decide,
    (additions_pass_through (JodaDate.mk (unixTime 983433600 0 (FixedZone (-28800))))
      (by decide) 3).1.1,
    (additions_pass_through (JodaDate.mk (unixTime 983433600 0 (FixedZone (-28800))))
      (by decide) 3).1.2.2.2.2.2.2.1 (by decide),
    ((additions_pass_through (JodaDate.mk (unixTime 983433600 0 (FixedZone (-28800))))
      (by decide) 3).2.1 (by decide)).1,
    ((additions_pass_through (JodaDate.mk (unixTime 983433600 0 (FixedZone (-28800))))
      (by decide) 3).2.1 (by decide)).2 (by decide)⟩

theorem scanPattern_quoted (fields : Char → Nat → List Char) (text rest : List Char)
    (hq : quoteChar ∉ text) :
    scanPattern fields .quoted (text ++ quoteChar :: rest)
      = text ++ scanPattern fields (.outside none) rest := by
  induction text with
  | nil => simp [scanPattern]
  | cons c cs ih =>
    have hc : c ≠ quoteChar := fun h => hq (by rw [h]; exact List.mem_cons_self _ _)
    have hcs : quoteChar ∉ cs := fun h => hq (List.mem_cons_of_mem _ h)
    simp [scanPattern, hc, ih hcs]

/-- C16: in the pattern scanner of `Format`, for every date (every field renderer) and
wherever the scanner is outside quotes, text between single quotes is emitted literally
and two consecutive single quotes emit one quote character; for a date of year 2009 the
pattern `'YYZbca'Y` renders `YYZbca2009` and the pattern `''YYYY` renders `'2009`. -/
theorem Format_quote_escaping (fields others : Char → Nat → List Char)
    (run : Option (Char × Nat)) (text rest : List Char)
    (hne : text ≠ []) (hq : quoteChar ∉ text) (t : Time) (hy : t.Year = some 2009) :
    scanPattern fields (.outside run) (quoteChar :: (text ++ quoteChar :: rest))
      = flushRun fields run ++ (text ++ scanPattern fields (.outside none) rest) ∧
    scanPattern fields (.outside run) (quoteChar :: quoteChar :: rest)
      = flushRun fields run ++ quoteChar :: scanPattern fields (.outside none) rest ∧
    Format others t ("'YYZbca'Y") = some ("YYZbca2009") ∧
    Format others t ("''YYYY") = some ("'2009") := by
  refine ⟨?_, by simp [scanPattern], ?_, ?_⟩
  · cases text with
    | nil => exact absurd rfl hne
    | cons c cs =>
      have hc : c ≠ quoteChar := fun h => hq (by rw [h]; exact List.mem_cons_self _ _)
      have hcs : quoteChar ∉ cs := fun h => hq (List.mem_cons_of_mem _ h)
      simp [scanPattern, hc, scanPattern_quoted fields cs rest hcs]
  · unfold Format
    rw [hy]
    rfl
  · unfold Format
    rw [hy]
    rfl

theorem Format_quote_escaping_witness :
    (['a', 't'] : List Char) ≠ [] ∧ quoteChar ∉ (['a', 't'] : List Char) ∧
    Time.Year (unixTime 1233810057 12345600 (FixedZone (-28800))) = some 2009 ∧
    (scanPattern (dateFields 2009 fun _ _ => []) (.outside (some ('Y', 4)))
        (quoteChar :: (['a', 't'] ++ quoteChar :: ['Y']))
      = flushRun (dateFields 2009 fun _ _ => []) (some ('Y', 4))
        ++ (['a', 't'] ++ scanPattern (dateFields 2009 fun _ _ => []) (.outside none) ['Y']) ∧
    scanPattern (dateFields 2009 fun _ _ => []) (.outside (some ('Y', 4)))
        (quoteChar :: quoteChar :: ['Y'])
      = flushRun (dateFields 2009 fun _ _ => []) (some ('Y', 4))
        ++ quoteChar :: scanPattern (dateFields 2009 fun _ _ => []) (.outside none) ['Y'] ∧
    Format (fun _ _ => []) (unixTime 1233810057 12345600 (FixedZone (-28800)))
      ("'YYZbca'Y") = some ("YYZbca2009") ∧
    Format (fun _ _ => []) (unixTime 1233810057 12345600 (FixedZone (-28800))) ("''YYYY")
      = some ("'2009")) :=
  ⟨by decide, by decide, by decide,
    Format_quote_escaping _ _ _ _ _ (by decide) (by decide) _ (by decide)⟩

set_option maxRecDepth 100000 in
/-- C11, evaluated at failing inputs: `DateDay(2024, 1, 8).AddMonth(-5)` computes
`m2 = -4` and indexes `daysBefore[-4]`, which panics; `DateDay(2024, 3, 8).AddMonth(-1)`
adds 334 days and reads 2025-02-05, later than the original date. -/
theorem AddMonth_negative_count :
    (DateDay 2024 1 8).civil = some (2024, 1, 8, 0, 0, 0) ∧
    (DateDay 2024 1 8).AddMonth (-5) = none ∧
    (DateDay 2024 3 8).civil = some (2024, 3, 8, 0, 0, 0) ∧
    addMonthDays (DateDay 2024 3 8) (-1) = some 334 ∧
    (DateDay 2024 3 8).AddMonth (-1) = some ⟨(DateDay 2024 3 8).Date.shift (86400 * 334)⟩ ∧
    ((DateDay 2024 3 8).AddMonth (-1)).bind JodaDate.civil = some (2025, 2, 5, 0, 0, 0) :=
  ⟨by decide, by decide, by decide, by decide, by decide, by decide⟩

set_option maxRecDepth 100000 in
/-- C12, evaluated on the code: the zone of `DateFull`, `DateDay`, `DateHour`,
`DateMinute`, `DateSecond` and `DateChina` has offset 8 seconds, not 28800; so
`DateHour(2023, 5, 8, 6)` is the Unix second 1683525592 (05:59:52 UTC), while 06:00 in a
zone 8 hours east of UTC is the Unix second 1683496800. -/
theorem default_zone_offset (year month day hour min sec nsec : Int) (j : JodaDate) :
    (DateFull year month day hour min sec nsec).Date.Zone = 8 ∧
    (DateDay year month day).Date.Zone = 8 ∧
    (DateHour year month day hour).Date.Zone = 8 ∧
    (DateMinute year month day hour min).Date.Zone = 8 ∧
    (DateSecond year month day hour min sec).Date.Zone = 8 ∧
    j.DateChina.Zone = 8 ∧
    (8 : Int) ≠ 28800 ∧
    DateHour 2023 5 8 6 = ⟨unixTime 1683525592 0 (FixedZone 8)⟩ ∧
    (DateHour 2023 5 8 6).civil = some (2023, 5, 8, 6, 0, 0) ∧
    (Date 2023 5 8 6 0 0 0 (FixedZone 28800)).Unix = 1683496800 :=
  ⟨Time.Zone_fixed _ 8 rfl, Time.Zone_fixed _ 8 rfl, Time.Zone_fixed _ 8 rfl,
    Time.Zone_fixed _ 8 rfl, Time.Zone_fixed _ 8 rfl, Time.Zone_fixed _ 8 rfl,
    by decide, by decide, by decide, by decide⟩

/-- C21: `absWeekday` lies in 0..6 (Sunday = 0) for every absolute time, and the absolute
time 0 is a Monday; for an absolute time whose sum with one day does not wrap, it is the
day number plus one, modulo 7; and one day later the weekday is the next one modulo 7, as
long as the sum with two days does not wrap. -/
theorem absWeekday_day_number (abs : Nat) :
    (Sunday ≤ absWeekday abs ∧ absWeekday abs ≤ 6) ∧
    absWeekday 0 = Monday ∧
    (abs + 86400 < 2 ^ 64 → absWeekday abs = (((abs / 86400 + 1) % 7 : Nat) : Int)) ∧
    (abs + 2 * 86400 < 2 ^ 64 →
      absWeekday (abs + 86400) = (absWeekday abs + 1) % 7) := by
  have hm : toUint64 Monday = 1 := by decide
  have general : ∀ a : Nat, absWeekday a
      = (((a + 86400) % 18446744073709551616 % 604800 / 86400 : Nat) : Int) := by
    intro a
    have h2 : (a + 86400) % 18446744073709551616 % 604800 < 2 ^ 63 := by
      have := Nat.mod_lt ((a + 86400) % 18446744073709551616) (show 0 < 604800 by decide)
      omega
    simp only [absWeekday, hm, secondsPerDay, secondsPerWeek, secondsPerHour]
    norm_num only
    rw [toInt64_of_lt _ h2, Int.tdiv_eq_ediv (Int.natCast_nonneg _) (by decide)]
    push_cast
    rfl
  have formula : ∀ a : Nat, a + 86400 < 2 ^ 64 →
      absWeekday a = (((a / 86400 + 1) % 7 : Nat) : Int) := by
    intro a ha
    have h1 : (a + 86400) % 18446744073709551616 = a + 86400 :=
      Nat.mod_eq_of_lt (by omega)
    have h3 : (a + 86400) % 604800 / 86400 = (a / 86400 + 1) % 7 := by omega
    rw [general a, h1, h3]
  refine ⟨?_, by decide, formula abs, ?_⟩
  · rw [general abs]
    refine ⟨by simp only [Sunday]; positivity, ?_⟩
    have := Nat.mod_lt ((abs + 86400) % 18446744073709551616) (show 0 < 604800 by decide)
    omega
  · intro h2
    rw [formula abs (by omega), formula (abs + 86400) (by omega)]
    have : (abs + 86400) / 86400 = abs / 86400 + 1 := by omega
    rw [this]
    omega

/-- C21 at the absolute time of 2023-05-08 00:00:00 UTC, a Monday, and the next day. -/
theorem absWeekday_day_number_witness :
    (9223372030398825600 : Nat) + 86400 < 2 ^ 64 ∧
    (9223372030398825600 : Nat) + 2 * 86400 < 2 ^ 64 ∧
    absWeekday 9223372030398825600 = 1 ∧
    absWeekday 9223372030398825600 = (((9223372030398825600 / 86400 + 1) % 7 : Nat) : Int) ∧
    absWeekday (9223372030398825600 + 86400) = (absWeekday 9223372030398825600 + 1) % 7 :=
  ⟨by decide, by decide, by decide,
    (absWeekday_day_number 9223372030398825600).2.2.1 (by decide),
    (absWeekday_day_number 9223372030398825600).2.2.2 (by decide)⟩

end Jodatime
